import Mathlib

/-!
# Verification of the Nuggit GitHub API access layer

Shallow embedding of the resilience core of the `nuggit` repository:

* `nuggit/util/error_recovery.py` — circuit breaker (`CircuitBreaker`);
* `nuggit/util/github_client.py` — rate-limit tracking, backoff computation
  and retrying execution (`GitHubAPIClient`);
* `nuggit/util/db.py` — `_insert_or_update_repo_impl` (history-tracking upsert).

Python exceptions are modelled with an explicit exception type and
`Except`-valued functions; `datetime` values are modelled by their epoch
seconds (an `Int`), with a separate constructor for plain Python `int`
timestamps so that ill-typed `datetime` arithmetic is visible; wall-clock
samples (`now_utc()` / `datetime.utcnow()`) and random draws
(`random.uniform`) are passed in explicitly.
-/

namespace Nuggit

/-- Exceptions of the Python code that the embedding distinguishes.
`githubException s` carries the HTTP status, as `GithubException.status` does. -/
inductive PyExn where
  | githubException (status : Int)
  | connectionError
  | timeoutError
  | typeError (msg : String)
  | circuitBreakerOpenError
  | otherError (name : String)
deriving DecidableEq, Repr

/-! ## Circuit breaker (`nuggit/util/error_recovery.py`) -/

/-- `CircuitState` (error_recovery.py lines 25-29). -/
inductive CircuitState where
  | closed
  | isOpen
  | half_open
deriving DecidableEq, Repr

/-- `CircuitBreakerConfig` (error_recovery.py lines 32-38).  Thresholds and
the recovery timeout are Python ints; the operation timeout is unused by the
modelled control flow but kept for fidelity. -/
structure CircuitBreakerConfig where
  failure_threshold : Int := 5
  recovery_timeout : Int := 60
  success_threshold : Int := 3
  timeout : ℚ := 30
deriving DecidableEq, Repr

/-- `CircuitBreakerStats` (error_recovery.py lines 41-52).  Timestamps are
epoch seconds. -/
structure CircuitBreakerStats where
  total_requests : Int := 0
  successful_requests : Int := 0
  failed_requests : Int := 0
  circuit_opened_count : Int := 0
  last_failure_time : Option Int := none
  last_success_time : Option Int := none
  current_state : CircuitState := .closed
  consecutive_failures : Int := 0
  consecutive_successes : Int := 0
deriving DecidableEq, Repr

/-- A `CircuitBreaker` instance: its config, its stats and the private
`_last_failure_time` field (error_recovery.py lines 63-68). -/
structure CircuitBreaker where
  config : CircuitBreakerConfig
  stats : CircuitBreakerStats := {}
  lastFailureTime : Option Int := none
deriving DecidableEq, Repr

/-- `CircuitBreaker._should_attempt_reset` (error_recovery.py lines 70-79).
`now` is the value of `now_utc()`; a missing `_last_failure_time` is falsy. -/
def CircuitBreaker.should_attempt_reset (cb : CircuitBreaker) (now : Int) : Bool :=
  if cb.stats.current_state ≠ .isOpen then
    false
  else
    match cb.lastFailureTime with
    | none => true
    | some t => now - t ≥ cb.config.recovery_timeout

/-- `CircuitBreaker._record_success` (error_recovery.py lines 81-94). -/
def CircuitBreaker.record_success (cb : CircuitBreaker) (now : Int) : CircuitBreaker :=
  let s := cb.stats
  let s := { s with
    total_requests := s.total_requests + 1
    successful_requests := s.successful_requests + 1
    consecutive_failures := 0
    consecutive_successes := s.consecutive_successes + 1
    last_success_time := some now }
  let s :=
    if s.current_state = .half_open ∧ s.consecutive_successes ≥ cb.config.success_threshold then
      { s with current_state := .closed }
    else s
  { cb with stats := s }

/-- `CircuitBreaker._record_failure` (error_recovery.py lines 96-116). -/
def CircuitBreaker.record_failure (cb : CircuitBreaker) (now : Int) : CircuitBreaker :=
  let s := cb.stats
  let s := { s with
    total_requests := s.total_requests + 1
    failed_requests := s.failed_requests + 1
    consecutive_successes := 0
    consecutive_failures := s.consecutive_failures + 1
    last_failure_time := some now }
  let s :=
    if s.current_state = .closed ∧ s.consecutive_failures ≥ cb.config.failure_threshold then
      { s with current_state := .isOpen, circuit_opened_count := s.circuit_opened_count + 1 }
    else if s.current_state = .half_open then
      { s with current_state := .isOpen }
    else s
  { cb with stats := s, lastFailureTime := some now }

/-- Outcome of one `CircuitBreaker.call`: the returned value or raised
exception, the breaker afterwards, and whether the wrapped function was
actually invoked. -/
structure CallResult (T : Type) where
  result : Except PyExn T
  breaker : CircuitBreaker
  invoked : Bool
deriving Repr

/-- `CircuitBreaker.call` (error_recovery.py lines 118-140).  The wrapped
zero-argument function is modelled by the outcome `func` of its (single
possible) invocation; `invoked` records whether that path was taken. -/
def CircuitBreaker.call {T : Type} (cb : CircuitBreaker) (now : Int)
    (func : Except PyExn T) : CallResult T :=
  let cb :=
    if cb.should_attempt_reset now then
      { cb with stats := { cb.stats with current_state := .half_open } }
    else cb
  if cb.stats.current_state = .isOpen then
    ⟨.error .circuitBreakerOpenError, cb, false⟩
  else
    match func with
    | .ok v => ⟨.ok v, cb.record_success now, true⟩
    | .error e => ⟨.error e, cb.record_failure now, true⟩

/-- A sequence of calls whose wrapped function always fails with `e`, made
at the given times (earliest first). -/
def CircuitBreaker.failCalls (cb : CircuitBreaker) (e : PyExn) : List Int → CircuitBreaker
  | [] => cb
  | t :: ts => CircuitBreaker.failCalls (cb.call (T := Unit) t (.error e)).breaker e ts

/-- A sequence of calls whose wrapped function always succeeds, made at the
given times (earliest first). -/
def CircuitBreaker.succCalls (cb : CircuitBreaker) : List Int → CircuitBreaker
  | [] => cb
  | t :: ts => CircuitBreaker.succCalls (cb.call (T := Unit) t (.ok ())).breaker ts

/-- A fresh breaker, as built by `CircuitBreaker.__init__`. -/
def CircuitBreaker.fresh (cfg : CircuitBreakerConfig) : CircuitBreaker :=
  { config := cfg }

/-- A call on a breaker that is not open executes the wrapped function and
records the outcome. -/
theorem CircuitBreaker.call_not_open {T : Type} (cb : CircuitBreaker) (now : Int)
    (f : Except PyExn T) (h : cb.stats.current_state ≠ .isOpen) :
    cb.call now f =
      match f with
      | .ok v => ⟨.ok v, cb.record_success now, true⟩
      | .error e => ⟨.error e, cb.record_failure now, true⟩ := by
  unfold CircuitBreaker.call CircuitBreaker.should_attempt_reset
  simp [h]

/-- A call on an open breaker whose recovery window has not elapsed fails
fast without touching the breaker. -/
theorem CircuitBreaker.call_fastfail {T : Type} (cb : CircuitBreaker) (now : Int)
    (f : Except PyExn T) (h : cb.stats.current_state = .isOpen)
    (h2 : cb.should_attempt_reset now = false) :
    cb.call now f = ⟨.error .circuitBreakerOpenError, cb, false⟩ := by
  unfold CircuitBreaker.call
  simp [h, h2]

/-- Behaviour of `_record_failure` from the closed state. -/
theorem CircuitBreaker.record_failure_closed (cb : CircuitBreaker) (t : Int)
    (h : cb.stats.current_state = .closed) :
    (cb.record_failure t).config = cb.config ∧
    (cb.record_failure t).stats.consecutive_failures
      = cb.stats.consecutive_failures + 1 ∧
    (cb.record_failure t).lastFailureTime = some t ∧
    (cb.record_failure t).stats.current_state =
      (if cb.stats.consecutive_failures + 1 ≥ cb.config.failure_threshold
       then CircuitState.isOpen else .closed) := by
  unfold CircuitBreaker.record_failure
  simp only [h]
  split_ifs with h1 h2 <;> simp_all

/-- Invariant of a run of consecutive failing calls that starts closed and
whose length stays within the failure threshold: the streak counter grows by
one per call, the last failure time is recorded, and the breaker opens
exactly when the threshold is reached. -/
theorem CircuitBreaker.failCalls_spec (e : PyExn) :
    ∀ (ts : List Int) (cb : CircuitBreaker), ts ≠ [] →
      cb.stats.current_state = .closed →
      cb.stats.consecutive_failures + (ts.length : Int) ≤ cb.config.failure_threshold →
      (cb.failCalls e ts).config = cb.config ∧
      (cb.failCalls e ts).stats.consecutive_failures
        = cb.stats.consecutive_failures + (ts.length : Int) ∧
      (cb.failCalls e ts).lastFailureTime = ts.getLast? ∧
      (cb.failCalls e ts).stats.current_state =
        (if cb.stats.consecutive_failures + (ts.length : Int) ≥ cb.config.failure_threshold
         then CircuitState.isOpen else .closed) := by
  intro ts
  induction ts with
  | nil => intro cb h; exact absurd rfl h
  | cons t ts ih =>
    intro cb _ hclosed hlen
    have hne : cb.stats.current_state ≠ .isOpen := by rw [hclosed]; simp
    have hcall := cb.call_not_open (T := Unit) t (.error e) hne
    have hrec := cb.record_failure_closed t hclosed
    rw [CircuitBreaker.failCalls, hcall]
    rcases hrec with ⟨hcfg, hconsec, hlast, hstate⟩
    rcases eq_or_ne ts [] with hts | hts
    · subst hts
      simp only [CircuitBreaker.failCalls]
      refine ⟨hcfg, by simpa using hconsec, by simpa using hlast, ?_⟩
      rw [hstate]
      simp
    · have hlen' : (ts.length : Int) ≥ 1 := by
        have := List.length_pos.mpr hts
        omega
      -- the breaker stays closed because the threshold is not yet reached
      have hmid : ¬ (cb.stats.consecutive_failures + 1 ≥ cb.config.failure_threshold) := by
        simp only [List.length_cons] at hlen
        push_cast at hlen
        omega
      have hclosed' : (cb.record_failure t).stats.current_state = .closed := by
        rw [hstate, if_neg hmid]
      have ihcall := ih (cb.record_failure t) hts hclosed'
        (by rw [hconsec, hcfg]
            simp only [List.length_cons] at hlen
            push_cast at hlen ⊢
            omega)
      rcases ihcall with ⟨icfg, iconsec, ilast, istate⟩
      refine ⟨by rw [icfg, hcfg], ?_, ?_, ?_⟩
      · rw [iconsec, hconsec]
        simp only [List.length_cons]
        push_cast
        ring
      · rw [ilast]
        cases ts with
        | nil => exact absurd rfl hts
        | cons u us => rw [List.getLast?_cons_cons]
      · rw [istate, hconsec, hcfg]
        simp only [List.length_cons]
        push_cast
        split_ifs with h1 h2 <;> first
          | rfl
          | omega

/-- Invariant of a run of consecutive successful calls from a closed or
half-open breaker: the breaker ends closed exactly when it started closed or
the success streak reaches the success threshold. -/
theorem CircuitBreaker.succCalls_spec :
    ∀ (ts : List Int) (cb : CircuitBreaker),
      (cb.stats.current_state = .closed ∨ cb.stats.current_state = .half_open) →
      (cb.succCalls ts).stats.current_state =
        (if cb.stats.current_state = .closed then CircuitState.closed
         else if ts = [] then .half_open
         else if cb.stats.consecutive_successes + (ts.length : Int) ≥ cb.config.success_threshold
         then .closed else .half_open) := by
  intro ts
  induction ts with
  | nil =>
    intro cb hcb
    rcases hcb with h | h <;> simp [CircuitBreaker.succCalls, h]
  | cons t ts ih =>
    intro cb hcb
    have hne : cb.stats.current_state ≠ .isOpen := by rcases hcb with h | h <;> simp [h]
    have hcall := cb.call_not_open (T := Unit) t (.ok ()) hne
    rw [CircuitBreaker.succCalls, hcall]
    rcases hcb with h | h
    · -- from the closed state every success keeps the breaker closed
      have hclosed' : (cb.record_success t).stats.current_state = .closed := by
        unfold CircuitBreaker.record_success
        simp only [h]
        split_ifs with h1 <;> simp_all
      rw [ih (cb.record_success t) (Or.inl hclosed'), if_pos hclosed', if_pos h]
    · -- from the half-open state the success streak decides the transition
      by_cases hthr : cb.stats.consecutive_successes + 1 ≥ cb.config.success_threshold
      · have hclosed' : (cb.record_success t).stats.current_state = .closed := by
          unfold CircuitBreaker.record_success
          simp only [h]
          split_ifs with h1 <;> simp_all
        rw [ih (cb.record_success t) (Or.inl hclosed'), if_pos hclosed', if_neg (by simp [h]),
          if_neg (List.cons_ne_nil t ts)]
        simp only [List.length_cons]
        push_cast
        rw [if_pos (by omega)]
      · have hhalf : (cb.record_success t).stats.current_state = .half_open := by
          unfold CircuitBreaker.record_success
          simp only [h]
          split_ifs with h1 <;> simp_all
        have hconsec : (cb.record_success t).stats.consecutive_successes
            = cb.stats.consecutive_successes + 1 := by
          unfold CircuitBreaker.record_success
          dsimp only
          split_ifs with h1 <;> rfl
        have hcfg : (cb.record_success t).config = cb.config := rfl
        rw [ih (cb.record_success t) (Or.inr hhalf), if_neg (by simp [hhalf])]
        rcases eq_or_ne ts [] with hts | hts
        · subst hts
          rw [if_pos rfl, if_neg (by simp [h]), if_neg (List.cons_ne_nil t [])]
          simp only [List.length_cons, List.length_nil]
          rw [if_neg (by push_cast; omega)]
        · rw [if_neg hts, hconsec, hcfg,
            if_neg (show ¬cb.stats.current_state = CircuitState.closed by simp [h]),
            if_neg (List.cons_ne_nil t ts)]
          simp only [List.length_cons]
          push_cast
          split_ifs with h1 h2 <;> first
            | rfl
            | omega

/-- C1: starting from the CLOSED state of a fresh breaker, after
`failure_threshold = N` consecutive failing calls (`N ≥ 1`, made at times
`ts`), the breaker's state is OPEN, and a further call made before
`recovery_timeout` seconds have elapsed since the last failure raises
`CircuitBreakerOpenError` without invoking the wrapped function. -/
theorem C1_closed_opens_after_threshold_failures
    (cfg : CircuitBreakerConfig) (e : PyExn) (ts : List Int) (hne : ts ≠ [])
    (hN : cfg.failure_threshold = (ts.length : Int))
    (now tlast : Int) (hlast : ts.getLast? = some tlast)
    (hrt : now - tlast < cfg.recovery_timeout) :
    ((CircuitBreaker.fresh cfg).failCalls e ts).stats.current_state = .isOpen ∧
    ∀ (f : Except PyExn Unit),
      (((CircuitBreaker.fresh cfg).failCalls e ts).call now f).result
          = .error .circuitBreakerOpenError ∧
      (((CircuitBreaker.fresh cfg).failCalls e ts).call now f).invoked = false := by
  have hspec := CircuitBreaker.failCalls_spec e ts (CircuitBreaker.fresh cfg) hne rfl
    (by simp [CircuitBreaker.fresh, hN])
  rcases hspec with ⟨hcfg, _, hlastf, hstate⟩
  have hopen : ((CircuitBreaker.fresh cfg).failCalls e ts).stats.current_state = .isOpen := by
    rw [hstate, if_pos (by simp [CircuitBreaker.fresh, hN])]
  refine ⟨hopen, fun f => ?_⟩
  have hreset : ((CircuitBreaker.fresh cfg).failCalls e ts).should_attempt_reset now = false := by
    unfold CircuitBreaker.should_attempt_reset
    rw [if_neg (by simp [hopen])]
    rw [hlastf, hlast]
    simp only [decide_eq_false_iff_not, not_le]
    rw [hcfg]
    simpa using hrt
  rw [CircuitBreaker.call_fastfail _ _ _ hopen hreset]
  exact ⟨rfl, rfl⟩

/-- C1 witness: with `failure_threshold = 2`, two failing calls (at times 0
and 1) open a default-configured breaker, and a call at time 10 (less than
`recovery_timeout = 60` after the last failure) fails fast. -/
theorem C1_closed_opens_after_threshold_failures_witness :
    ((CircuitBreaker.fresh { failure_threshold := 2 }).failCalls
        .connectionError [0, 1]).stats.current_state = .isOpen ∧
    (((CircuitBreaker.fresh { failure_threshold := 2 }).failCalls
        .connectionError [0, 1]).call 10 (.ok ())).result
      = .error .circuitBreakerOpenError := by
  have h := C1_closed_opens_after_threshold_failures { failure_threshold := 2 }
    .connectionError [0, 1] (by simp) (by simp) 10 1 (by simp) (by norm_num)
  exact ⟨h.1, (h.2 (.ok ())).1⟩

/-- C2: (a) a call on an OPEN breaker at least `recovery_timeout` seconds
after the last recorded failure invokes the wrapped function instead of
fast-failing; (b) from HALF_OPEN with a clean success streak,
`success_threshold` consecutive successful calls set the state to CLOSED;
(c) any single failing call while HALF_OPEN sets the state back to OPEN. -/
theorem C2_half_open_recovery (cfg : CircuitBreakerConfig) :
    (∀ (cb : CircuitBreaker) (t now : Int) (f : Except PyExn Unit),
       cb.config = cfg →
       cb.stats.current_state = .isOpen →
       cb.lastFailureTime = some t →
       now - t ≥ cfg.recovery_timeout →
       (cb.call now f).invoked = true) ∧
    (∀ (cb : CircuitBreaker) (ts : List Int),
       cb.config = cfg →
       cb.stats.current_state = .half_open →
       cb.stats.consecutive_successes = 0 →
       cfg.success_threshold = (ts.length : Int) →
       ts ≠ [] →
       (cb.succCalls ts).stats.current_state = .closed) ∧
    (∀ (cb : CircuitBreaker) (now : Int) (e : PyExn),
       cb.stats.current_state = .half_open →
       (cb.call (T := Unit) now (.error e)).breaker.stats.current_state = .isOpen ∧
       (cb.call (T := Unit) now (.error e)).invoked = true) := by
  refine ⟨?_, ?_, ?_⟩
  · intro cb t now f hcfg hopen hlastf hrt
    have hreset : cb.should_attempt_reset now = true := by
      unfold CircuitBreaker.should_attempt_reset
      rw [if_neg (by simp [hopen]), hlastf]
      simp only [ge_iff_le, decide_eq_true_eq]
      rw [hcfg]
      omega
    unfold CircuitBreaker.call
    rw [hreset]
    simp only [if_pos rfl]
    rw [if_neg (by simp)]
    cases f <;> rfl
  · intro cb ts hcfg hhalf hstreak hthr hne
    have h := CircuitBreaker.succCalls_spec ts cb (Or.inr hhalf)
    rw [h, if_neg (by simp [hhalf]), if_neg hne,
      if_pos (by rw [hstreak, hcfg, hthr]; simp)]
  · intro cb now e hhalf
    have hne : cb.stats.current_state ≠ .isOpen := by simp [hhalf]
    rw [cb.call_not_open now (.error e) hne]
    refine ⟨?_, rfl⟩
    unfold CircuitBreaker.record_failure
    simp only [hhalf]
    split_ifs with h1 h2 <;> simp_all

/-- C2 witness: a breaker with `recovery_timeout = 60` that opened at time 0
invokes the wrapped function again at time 60; with `success_threshold = 2`
two successes from HALF_OPEN close it; one failure from HALF_OPEN reopens
it. -/
theorem C2_half_open_recovery_witness :
    (({ config := { recovery_timeout := 60 },
        stats := { current_state := .isOpen, consecutive_failures := 5 },
        lastFailureTime := some 0 : CircuitBreaker }.call 60
          (Except.ok ())).invoked = true) ∧
    (({ config := { success_threshold := 2 },
        stats := { current_state := .half_open } : CircuitBreaker }.succCalls
          [100, 101]).stats.current_state = .closed) ∧
    (({ config := {},
        stats := { current_state := .half_open } : CircuitBreaker }.call (T := Unit) 5
          (Except.error .timeoutError)).breaker.stats.current_state = .isOpen) := by
  refine ⟨?_, ?_, ?_⟩
  · exact (C2_half_open_recovery { recovery_timeout := 60 }).1
      _ 0 60 _ rfl rfl rfl (by norm_num)
  · exact (C2_half_open_recovery { success_threshold := 2 }).2.1
      _ [100, 101] rfl rfl rfl (by simp) (by simp)
  · exact ((C2_half_open_recovery {}).2.2 _ 5 .timeoutError rfl).1

/-- C6 counterexample: a fast-failed call on an open breaker raises
`CircuitBreakerOpenError` and leaves `total_requests` (and every other
statistic) unchanged, contradicting the claim that every call increments the
counters regardless of state. -/
theorem C6_counterexample_fastfail_does_not_count :
    ((({ config := {},
         stats := { total_requests := 5, failed_requests := 5, circuit_opened_count := 1,
                    last_failure_time := some 100, current_state := .isOpen,
                    consecutive_failures := 5 },
         lastFailureTime := some 100 : CircuitBreaker }).call (T := Unit) 110
        (Except.ok ())).result = .error .circuitBreakerOpenError) ∧
    ((({ config := {},
         stats := { total_requests := 5, failed_requests := 5, circuit_opened_count := 1,
                    last_failure_time := some 100, current_state := .isOpen,
                    consecutive_failures := 5 },
         lastFailureTime := some 100 : CircuitBreaker }).call (T := Unit) 110
        (Except.ok ())).breaker.stats.total_requests = 5) := by
  constructor <;> rfl

/-- Effect of `_record_success` on the statistics counters. -/
theorem CircuitBreaker.record_success_stats (cb : CircuitBreaker) (now : Int) :
    (cb.record_success now).stats.total_requests = cb.stats.total_requests + 1 ∧
    (cb.record_success now).stats.successful_requests = cb.stats.successful_requests + 1 ∧
    (cb.record_success now).stats.failed_requests = cb.stats.failed_requests ∧
    (cb.record_success now).stats.last_success_time = some now ∧
    (cb.record_success now).stats.last_failure_time = cb.stats.last_failure_time := by
  unfold CircuitBreaker.record_success
  dsimp only
  split_ifs <;> exact ⟨rfl, rfl, rfl, rfl, rfl⟩

/-- Effect of `_record_failure` on the statistics counters. -/
theorem CircuitBreaker.record_failure_stats (cb : CircuitBreaker) (now : Int) :
    (cb.record_failure now).stats.total_requests = cb.stats.total_requests + 1 ∧
    (cb.record_failure now).stats.failed_requests = cb.stats.failed_requests + 1 ∧
    (cb.record_failure now).stats.successful_requests = cb.stats.successful_requests ∧
    (cb.record_failure now).stats.last_failure_time = some now ∧
    (cb.record_failure now).stats.last_success_time = cb.stats.last_success_time := by
  unfold CircuitBreaker.record_failure
  dsimp only
  split_ifs <;> exact ⟨rfl, rfl, rfl, rfl, rfl⟩

/-- When the recovery check fires, the call proceeds exactly as a call on
the breaker moved to the HALF_OPEN state. -/
theorem CircuitBreaker.call_reset {T : Type} (cb : CircuitBreaker) (now : Int)
    (f : Except PyExn T) (h : cb.should_attempt_reset now = true) :
    cb.call now f
      = ({ cb with stats := { cb.stats with current_state := .half_open } }
          : CircuitBreaker).call now f := by
  have h2 : ({ cb with stats := { cb.stats with current_state := .half_open } }
      : CircuitBreaker).should_attempt_reset now = false := by
    unfold CircuitBreaker.should_attempt_reset
    rw [if_pos (by simp)]
  unfold CircuitBreaker.call
  rw [h, h2]
  simp

/-- C6 (amended): a call that invokes the wrapped function increments
`total_requests` and exactly one of the success/failure counters and updates
the corresponding timestamp; a call fast-failed with
`CircuitBreakerOpenError` leaves the statistics unchanged. -/
theorem C6_call_statistics (cb : CircuitBreaker) (now : Int) (f : Except PyExn Unit) :
    ((cb.call now f).invoked = false →
       (cb.call now f).result = .error .circuitBreakerOpenError ∧
       (cb.call now f).breaker.stats = cb.stats) ∧
    ((cb.call now f).invoked = true →
       (cb.call now f).breaker.stats.total_requests = cb.stats.total_requests + 1 ∧
       (∀ v, f = .ok v →
          (cb.call now f).breaker.stats.successful_requests
              = cb.stats.successful_requests + 1 ∧
          (cb.call now f).breaker.stats.failed_requests = cb.stats.failed_requests ∧
          (cb.call now f).breaker.stats.last_success_time = some now ∧
          (cb.call now f).breaker.stats.last_failure_time = cb.stats.last_failure_time) ∧
       (∀ e, f = .error e →
          (cb.call now f).breaker.stats.failed_requests = cb.stats.failed_requests + 1 ∧
          (cb.call now f).breaker.stats.successful_requests = cb.stats.successful_requests ∧
          (cb.call now f).breaker.stats.last_failure_time = some now ∧
          (cb.call now f).breaker.stats.last_success_time = cb.stats.last_success_time)) := by
  by_cases hreset : cb.should_attempt_reset now = true
  · rw [CircuitBreaker.call_reset cb now f hreset]
    have hno : ({ cb with stats := { cb.stats with current_state := .half_open } }
        : CircuitBreaker).stats.current_state ≠ .isOpen := by simp
    rw [CircuitBreaker.call_not_open _ now f hno]
    cases f with
    | ok v =>
      have hs := CircuitBreaker.record_success_stats
        ({ cb with stats := { cb.stats with current_state := .half_open } }) now
      exact ⟨fun hx => by simp at hx,
        fun _ => ⟨hs.1, fun w _ => ⟨hs.2.1, hs.2.2.1, hs.2.2.2.1, hs.2.2.2.2⟩,
          fun e he => by simp at he⟩⟩
    | error e =>
      have hs := CircuitBreaker.record_failure_stats
        ({ cb with stats := { cb.stats with current_state := .half_open } }) now
      exact ⟨fun hx => by simp at hx,
        fun _ => ⟨hs.1, fun w hw => by simp at hw,
          fun e' _ => ⟨hs.2.1, hs.2.2.1, hs.2.2.2.1, hs.2.2.2.2⟩⟩⟩
  · rw [Bool.not_eq_true] at hreset
    by_cases hopen : cb.stats.current_state = .isOpen
    · rw [CircuitBreaker.call_fastfail cb now f hopen hreset]
      exact ⟨fun _ => ⟨rfl, rfl⟩, fun hx => by simp at hx⟩
    · rw [CircuitBreaker.call_not_open cb now f hopen]
      cases f with
      | ok v =>
        have hs := CircuitBreaker.record_success_stats cb now
        exact ⟨fun hx => by simp at hx,
          fun _ => ⟨hs.1, fun w _ => ⟨hs.2.1, hs.2.2.1, hs.2.2.2.1, hs.2.2.2.2⟩,
            fun e he => by simp at he⟩⟩
      | error e =>
        have hs := CircuitBreaker.record_failure_stats cb now
        exact ⟨fun hx => by simp at hx,
          fun _ => ⟨hs.1, fun w hw => by simp at hw,
            fun e' _ => ⟨hs.2.1, hs.2.2.1, hs.2.2.2.1, hs.2.2.2.2⟩⟩⟩

/-- C6 witness: a successful call on a fresh breaker increments
`total_requests` and `successful_requests` and records the success time. -/
theorem C6_call_statistics_witness :
    ((CircuitBreaker.fresh {}).call 7 (Except.ok ())).breaker.stats.total_requests = 1 ∧
    ((CircuitBreaker.fresh {}).call 7 (Except.ok ())).breaker.stats.successful_requests = 1 ∧
    ((CircuitBreaker.fresh {}).call 7 (Except.ok ())).breaker.stats.last_success_time
      = some 7 := by
  have h := (C6_call_statistics (CircuitBreaker.fresh {}) 7 (Except.ok ())).2 rfl
  exact ⟨h.1, (h.2.1 () rfl).1, (h.2.1 () rfl).2.2.1⟩

/-! ## GitHub API client (`nuggit/util/github_client.py`) -/

/-- A Python timestamp as stored in `RateLimitInfo.reset_time`: either a
`datetime` (represented by its epoch seconds) or a plain `int` of epoch
seconds, as produced by `int(now.timestamp()) + DEFAULT_RATE_LIMIT_RESET_TIME`
in the fallback paths of `_update_rate_limit_info`. -/
inductive PyTime where
  | dt (epoch : Int)
  | int (epoch : Int)
deriving DecidableEq, Repr

/-- `RateLimitInfo` (github_client.py lines 44-60). -/
structure RateLimitInfo where
  limit : Int
  remaining : Int
  reset_time : PyTime
  used : Int
deriving DecidableEq, Repr

/-- `RateLimitInfo.reset_in_seconds` (github_client.py lines 52-55):
`max(0, int((self.reset_time - datetime.utcnow()).total_seconds()))`.
Subtraction is defined between two `datetime`s; when `reset_time` is a plain
`int` the expression `int - datetime` raises a `TypeError`. -/
def RateLimitInfo.reset_in_seconds (info : RateLimitInfo) (now : Int) : Except PyExn Int :=
  match info.reset_time with
  | .dt t => .ok (max 0 (t - now))
  | .int _ => .error (.typeError "unsupported operand types for subtraction: int and datetime")

/-- `RateLimitInfo.is_exhausted` (github_client.py lines 57-60). -/
def RateLimitInfo.is_exhausted (info : RateLimitInfo) : Bool :=
  info.remaining ≤ 0

/-- `RetryConfig` (github_client.py lines 63-71).  Delays are rationals
standing for Python floats. -/
structure RetryConfig where
  max_retries : Nat := 5
  base_delay : ℚ := 1
  max_delay : ℚ := 300
  exponential_base : ℚ := 2
  jitter : Bool := true
  respect_retry_after : Bool := true
deriving DecidableEq, Repr

/-- `GitHubAPIClient._calculate_backoff_delay` (github_client.py lines
169-183).  `padRand` stands for the draw of `random.uniform(1, 5)` and
`jitterRand` for the draw of `random.uniform(0.5, 1.5)`; `rate_limit_reset`
is falsy when it is `None` or `0`. -/
def calculate_backoff_delay (attempt : Nat) (config : RetryConfig)
    (rate_limit_reset : Option Int) (padRand jitterRand : ℚ) : ℚ :=
  let delay :=
    match rate_limit_reset with
    | some r =>
        if r ≠ 0 ∧ config.respect_retry_after then
          (r : ℚ) + padRand
        else
          config.base_delay * config.exponential_base ^ attempt
    | none => config.base_delay * config.exponential_base ^ attempt
  let delay := if config.jitter then delay * jitterRand else delay
  min delay config.max_delay

/-- `GitHubAPIClient._should_retry` (github_client.py lines 185-207). -/
def should_retry (e : PyExn) (attempt : Nat) (config : RetryConfig) : Bool :=
  if attempt ≥ config.max_retries then
    false
  else
    match e with
    | .githubException status =>
        if status = 403 then true
        else if status ≥ 500 then true
        else if status = 502 then true
        else if status = 503 then true
        else if status = 504 then true
        else false
    | .connectionError => true
    | .timeoutError => true
    | _ => false

/-- C3 counterexample: with the default `RetryConfig` (which has
`respect_retry_after = True` and `jitter = True`), a reset time of 10
seconds, a pad draw of 1 (inside [1, 5]) and a jitter draw of 1/2 (inside
[0.5, 1.5]), the computed delay is 11/2 < 10, so the delay is not `≥ R`. -/
theorem C3_counterexample_jitter_below_reset :
    ({} : RetryConfig).respect_retry_after = true ∧
    (0 : Int) < 10 ∧
    (1 : ℚ) ≤ 1 ∧ (1 : ℚ) ≤ 5 ∧
    ((1 : ℚ)/2) ≥ 1/2 ∧ ((1 : ℚ)/2) ≤ 3/2 ∧
    calculate_backoff_delay 0 {} (some 10) 1 (1/2) < 10 := by
  refine ⟨rfl, by norm_num, by norm_num, by norm_num, by norm_num, by norm_num, ?_⟩
  unfold calculate_backoff_delay
  norm_num

/-- C3 (amended): when `respect_retry_after` is set, the pad draw is at
least its lower bound 1, `jitter` is disabled and the reset time does not
exceed `max_delay`, the computed delay is at least the reset time `R`.
(With jitter enabled the delay may be scaled below `R`, and in every case it
is capped at `max_delay`.) -/
theorem C3_delay_at_least_reset (attempt : Nat) (config : RetryConfig)
    (R : Int) (pad jitterRand : ℚ)
    (hra : config.respect_retry_after = true)
    (hj : config.jitter = false)
    (hR : 0 < R)
    (hcap : (R : ℚ) ≤ config.max_delay)
    (hpad : 1 ≤ pad) :
    (R : ℚ) ≤ calculate_backoff_delay attempt config (some R) pad jitterRand := by
  unfold calculate_backoff_delay
  dsimp only
  rw [if_neg (by simp [hj]), if_pos ⟨by omega, hra⟩]
  refine le_min ?_ hcap
  have : (0 : ℚ) ≤ pad := le_trans (by norm_num) hpad
  linarith

/-- C3 witness: with jitter disabled, `R = 10 ≤ max_delay = 300` and a pad
draw of 1, the delay is at least 10. -/
theorem C3_delay_at_least_reset_witness :
    ((10 : Int) : ℚ) ≤ calculate_backoff_delay 0 { jitter := false } (some 10) 1 1 :=
  C3_delay_at_least_reset 0 { jitter := false } 10 1 1 rfl rfl (by norm_num)
    (by norm_num) (by norm_num)

/-- `RateLimitType` (github_client.py lines 37-41). -/
inductive RateLimitType where
  | core
  | search
  | graphql
deriving DecidableEq, Repr

/-- A raw per-category rate object as returned by PyGithub
(`rate_limit.core` / `rate_limit.search`, or the flat `rate_limit` itself):
`limit`, `remaining` and a `reset` datetime. -/
structure RawRate where
  limit : Int
  remaining : Int
  reset : Int
deriving DecidableEq, Repr

/-- The shape of a successful `self._github.get_rate_limit()` response, as
discriminated by the `hasattr` checks in `_update_rate_limit_info`:
a newer-API object with `core` and `search` attributes, an older flat
object with a `limit` attribute (no separate search info), or an object of
undeterminable structure. -/
inductive RateLimitFetch where
  | withCore (core search : RawRate)
  | flat (core : RawRate)
  | unknown
deriving DecidableEq, Repr

/-- The client's `_rate_limit_cache` dictionary.  The code only ever writes
the CORE and SEARCH keys, so the cache is modelled by those two optional
entries. -/
structure RateLimitCache where
  core : Option RateLimitInfo := none
  search : Option RateLimitInfo := none
deriving DecidableEq, Repr

/-- Emptiness of the cache dictionary (the Python truthiness test
`not self._rate_limit_cache`). -/
def RateLimitCache.isEmpty (c : RateLimitCache) : Bool :=
  c.core = none ∧ c.search = none

/-- Dictionary lookup `self._rate_limit_cache.get(rate_type)`. -/
def RateLimitCache.get (c : RateLimitCache) : RateLimitType → Option RateLimitInfo
  | .core => c.core
  | .search => c.search
  | .graphql => none

/-- The client's `_stats` dictionary (github_client.py lines 86-93). -/
structure ClientStats where
  requests_made : Nat := 0
  rate_limit_hits : Nat := 0
  retries_performed : Nat := 0
  successful_requests : Nat := 0
  failed_requests : Nat := 0
  total_wait_time : ℚ := 0
deriving DecidableEq, Repr

/-- The mutable state of a `GitHubAPIClient`: rate limit cache, time of the
last rate-limit check (`none` models the initial `datetime.min`, which is
always more than the check interval in the past) and the statistics. -/
structure ClientState where
  cache : RateLimitCache := {}
  last_rate_limit_check : Option Int := none
  stats : ClientStats := {}
deriving DecidableEq, Repr

/-- `_rate_limit_check_interval` = `timedelta(minutes=5)`, in seconds. -/
def rate_limit_check_interval : Int := 300

/-- `DEFAULT_RATE_LIMIT_RESET_TIME` (github_client.py line 34). -/
def DEFAULT_RATE_LIMIT_RESET_TIME : Int := 3600

/-- `GitHubAPIClient._update_rate_limit_info` (github_client.py lines
95-162).  `now` is the sampled `datetime.utcnow()` and `fetch` the outcome
of the network call `self._github.get_rate_limit()`.  Every code path ends
in a normal return (the `try/except` swallows the fetch failure), which is
why every branch of the translation is `Except.ok`. -/
def update_rate_limit_info (s : ClientState) (now : Int)
    (fetch : Except PyExn RateLimitFetch) (force : Bool) : Except PyExn ClientState :=
  let recent : Bool :=
    match s.last_rate_limit_check with
    | some t => decide (now - t < rate_limit_check_interval)
    | none => false
  if !force && recent then
    .ok s
  else
    match fetch with
    | .error _ =>
        -- `except Exception`: fall back to defaults only when the cache is empty
        if s.cache.isEmpty then
          .ok { s with cache :=
            { core := some ⟨5000, 5000, .int (now + DEFAULT_RATE_LIMIT_RESET_TIME), 0⟩,
              search := some ⟨30, 30, .int (now + DEFAULT_RATE_LIMIT_RESET_TIME), 0⟩ } }
        else
          .ok s
    | .ok .unknown =>
        .ok { s with
          cache :=
            { core := some ⟨5000, 5000, .int (now + DEFAULT_RATE_LIMIT_RESET_TIME), 0⟩,
              search := some ⟨30, 30, .int (now + DEFAULT_RATE_LIMIT_RESET_TIME), 0⟩ },
          last_rate_limit_check := some now }
    | .ok (.withCore core search) =>
        .ok { s with
          cache :=
            { core := some ⟨core.limit, core.remaining, .dt core.reset,
                core.limit - core.remaining⟩,
              search := some ⟨search.limit, search.remaining, .dt search.reset,
                search.limit - search.remaining⟩ },
          last_rate_limit_check := some now }
    | .ok (.flat core) =>
        .ok { s with
          cache :=
            { core := some ⟨core.limit, core.remaining, .dt core.reset,
                core.limit - core.remaining⟩,
              search := some ⟨30, 30, .int (now + DEFAULT_RATE_LIMIT_RESET_TIME), 0⟩ },
          last_rate_limit_check := some now }

/-- `GitHubAPIClient.get_rate_limit_info` (github_client.py lines 164-167):
refresh (not forced), then read the cache. -/
def get_rate_limit_info (s : ClientState) (now : Int)
    (fetch : Except PyExn RateLimitFetch)
    (rate_type : RateLimitType := .core) :
    Except PyExn (Option RateLimitInfo × ClientState) :=
  match update_rate_limit_info s now fetch false with
  | .ok s₁ => .ok (s₁.cache.get rate_type, s₁)
  | .error e => .error e

/-- The `rate_limit` entry built by `GitHubAPIClient.get_stats`
(github_client.py lines 398-406), which evaluates
`rate_info.reset_in_seconds` on the cached CORE entry. -/
structure RateLimitStatsView where
  remaining : Int
  limit : Int
  reset_in_seconds : Int
  utilization : ℚ
deriving DecidableEq, Repr

/-- The rate-limit portion of `GitHubAPIClient.get_stats` (github_client.py
lines 394-415): consult `get_rate_limit_info` and, when an entry exists,
evaluate its `reset_in_seconds` property. -/
def get_stats_rate_limit (s : ClientState) (now : Int)
    (fetch : Except PyExn RateLimitFetch) :
    Except PyExn (Option RateLimitStatsView × ClientState) :=
  match get_rate_limit_info s now fetch .core with
  | .error e => .error e
  | .ok (none, s₁) => .ok (none, s₁)
  | .ok (some info, s₁) =>
      match info.reset_in_seconds now with
      | .error e => .error e
      | .ok r =>
          .ok (some ⟨info.remaining, info.limit, r,
            if info.limit > 0 then (info.used : ℚ) / (info.limit : ℚ) else 0⟩, s₁)

/-- C7 counterexample: with a non-empty cache (one CORE entry reporting 0
remaining out of 5000), a failing quota refresh leaves the cache unchanged —
no conservative full-quota default is cached, contradicting the claim that a
default is cached whenever the refresh fails. -/
theorem C7_counterexample_nonempty_cache_kept :
    update_rate_limit_info
        { cache := { core := some ⟨5000, 0, .dt 0, 5000⟩ },
          last_rate_limit_check := none, stats := {} } 0
        (.error .connectionError) true
      = .ok { cache := { core := some ⟨5000, 0, .dt 0, 5000⟩ },
              last_rate_limit_check := none, stats := {} } ∧
    (({ cache := { core := some ⟨5000, 0, .dt 0, 5000⟩ },
        last_rate_limit_check := none, stats := {} } : ClientState)).cache.core.map
        RateLimitInfo.remaining = some 0 := by
  constructor <;> rfl

/-- C7 (amended): `_update_rate_limit_info` and `get_rate_limit_info` never
propagate any exception of the quota refresh; when the refresh fails with an
empty cache, conservative full-quota defaults (remaining = limit, used = 0)
are cached for both CORE and SEARCH, and when the cache is non-empty the
previously cached values are simply retained. -/
theorem C7_refresh_failure_never_propagates (s : ClientState) (now : Int) (force : Bool) :
    (∀ fetch : Except PyExn RateLimitFetch,
       ∃ s₁, update_rate_limit_info s now fetch force = .ok s₁) ∧
    (∀ (fetch : Except PyExn RateLimitFetch) (rate_type : RateLimitType),
       ∃ r s₁, get_rate_limit_info s now fetch rate_type = .ok (r, s₁)) ∧
    (∀ e : PyExn, s.cache.isEmpty = true → s.last_rate_limit_check = none →
       update_rate_limit_info s now (.error e) force
         = .ok { s with cache :=
             { core := some ⟨5000, 5000, .int (now + DEFAULT_RATE_LIMIT_RESET_TIME), 0⟩,
               search := some ⟨30, 30, .int (now + DEFAULT_RATE_LIMIT_RESET_TIME), 0⟩ } }) ∧
    (∀ e : PyExn, s.cache.isEmpty = false →
       update_rate_limit_info s now (.error e) force = .ok s) := by
  have hok : ∀ (fetch : Except PyExn RateLimitFetch) (b : Bool),
      ∃ s₁, update_rate_limit_info s now fetch b = .ok s₁ := by
    intro fetch b
    unfold update_rate_limit_info
    dsimp only
    rcases fetch with e | v
    · split_ifs <;> exact ⟨_, rfl⟩
    · cases v <;> split_ifs <;> exact ⟨_, rfl⟩
  refine ⟨fun fetch => hok fetch force, ?_, ?_, ?_⟩
  · intro fetch rate_type
    obtain ⟨s₁, hs₁⟩ := hok fetch false
    exact ⟨s₁.cache.get rate_type, s₁, by unfold get_rate_limit_info; rw [hs₁]⟩
  · intro e hemp hnone
    unfold update_rate_limit_info
    rw [hnone]
    dsimp only
    rw [if_neg (by simp), if_pos hemp]
  · intro e hemp
    unfold update_rate_limit_info
    dsimp only
    split_ifs with h1 h2 <;> simp_all

/-- C7 witness: on a fresh client a failing refresh caches the full-quota
defaults for both kinds, and `get_rate_limit_info` returns normally. -/
theorem C7_refresh_failure_never_propagates_witness :
    update_rate_limit_info {} 0 (.error .connectionError) true
      = .ok { cache :=
          { core := some ⟨5000, 5000, .int 3600, 0⟩,
            search := some ⟨30, 30, .int 3600, 0⟩ } } ∧
    (∃ r s₁, get_rate_limit_info {} 0 (.error .connectionError) .core = .ok (r, s₁)) := by
  have h := C7_refresh_failure_never_propagates {} 0 true
  exact ⟨h.2.2.1 .connectionError rfl rfl, h.2.1 (.error .connectionError) .core⟩

/-- C10: in both fallback paths of `_update_rate_limit_info` (quota refresh
raised with an empty cache; rate-limit structure undeterminable) the cached
`RateLimitInfo` entries carry a plain `int` epoch value as `reset_time`, and
every evaluation of `reset_in_seconds` on such an entry raises a `TypeError`
(`int - datetime` is not defined); consequently `get_stats`, which evaluates
`reset_in_seconds` on the cached CORE entry, raises that `TypeError`. -/
theorem C10_default_reset_time_is_int (s : ClientState) (now t : Int) (e : PyExn)
    (force : Bool) (hnone : s.last_rate_limit_check = none) :
    (s.cache.isEmpty = true →
       ∃ s₁, update_rate_limit_info s now (.error e) force = .ok s₁ ∧
         ∃ ci si, s₁.cache.core = some ci ∧ s₁.cache.search = some si ∧
           ci.reset_time = .int (now + DEFAULT_RATE_LIMIT_RESET_TIME) ∧
           si.reset_time = .int (now + DEFAULT_RATE_LIMIT_RESET_TIME) ∧
           ci.reset_in_seconds t
             = .error (.typeError
                 "unsupported operand types for subtraction: int and datetime") ∧
           si.reset_in_seconds t
             = .error (.typeError
                 "unsupported operand types for subtraction: int and datetime")) ∧
    (∃ s₂, update_rate_limit_info s now (.ok .unknown) force = .ok s₂ ∧
       ∃ ci si, s₂.cache.core = some ci ∧ s₂.cache.search = some si ∧
         ci.reset_time = .int (now + DEFAULT_RATE_LIMIT_RESET_TIME) ∧
         si.reset_time = .int (now + DEFAULT_RATE_LIMIT_RESET_TIME) ∧
         ci.reset_in_seconds t
           = .error (.typeError
               "unsupported operand types for subtraction: int and datetime") ∧
         si.reset_in_seconds t
           = .error (.typeError
               "unsupported operand types for subtraction: int and datetime")) ∧
    (∀ (s' : ClientState) (info : RateLimitInfo) (u t' : Int)
       (fetch : Except PyExn RateLimitFetch),
       s'.cache.core = some info → info.reset_time = .int u →
       s'.last_rate_limit_check = some t' → now - t' < rate_limit_check_interval →
       get_stats_rate_limit s' now fetch
         = .error (.typeError
             "unsupported operand types for subtraction: int and datetime")) := by
  refine ⟨?_, ?_, ?_⟩
  · intro hemp
    have hupd : update_rate_limit_info s now (.error e) force
        = .ok { s with cache :=
            { core := some ⟨5000, 5000, .int (now + DEFAULT_RATE_LIMIT_RESET_TIME), 0⟩,
              search := some ⟨30, 30, .int (now + DEFAULT_RATE_LIMIT_RESET_TIME), 0⟩ } } := by
      unfold update_rate_limit_info
      rw [hnone]
      dsimp only
      rw [if_neg (by simp), if_pos hemp]
    exact ⟨_, hupd, _, _, rfl, rfl, rfl, rfl, rfl, rfl⟩
  · have hupd : update_rate_limit_info s now (.ok .unknown) force
        = .ok { cache := { core := some ⟨5000, 5000,
                             .int (now + DEFAULT_RATE_LIMIT_RESET_TIME), 0⟩,
                           search := some ⟨30, 30,
                             .int (now + DEFAULT_RATE_LIMIT_RESET_TIME), 0⟩ },
                last_rate_limit_check := some now,
                stats := s.stats } := by
      unfold update_rate_limit_info
      rw [hnone]
      dsimp only
      rw [if_neg (by simp)]
    exact ⟨_, hupd, _, _, rfl, rfl, rfl, rfl, rfl, rfl⟩
  · intro s' info u t' fetch hcore hint hlast hrecent
    have hupd : update_rate_limit_info s' now fetch false = .ok s' := by
      unfold update_rate_limit_info
      rw [hlast]
      dsimp only
      rw [if_pos (by simpa using hrecent)]
    have hget : get_rate_limit_info s' now fetch .core = .ok (some info, s') := by
      unfold get_rate_limit_info
      rw [hupd]
      dsimp only
      rw [show s'.cache.get .core = s'.cache.core from rfl, hcore]
    unfold get_stats_rate_limit
    rw [hget]
    dsimp only
    unfold RateLimitInfo.reset_in_seconds
    rw [hint]

/-- C10 witness: on a fresh client at time 0, a failing refresh (and
likewise an unknown-structure response) caches entries whose
`reset_in_seconds` raises `TypeError`; a subsequent `get_stats` within the
check interval raises that `TypeError`. -/
theorem C10_default_reset_time_is_int_witness :
    (∃ s₁, update_rate_limit_info {} 0 (.error .connectionError) true = .ok s₁ ∧
       ∃ ci si, s₁.cache.core = some ci ∧ s₁.cache.search = some si ∧
         ci.reset_time = .int (0 + DEFAULT_RATE_LIMIT_RESET_TIME) ∧
         si.reset_time = .int (0 + DEFAULT_RATE_LIMIT_RESET_TIME) ∧
         ci.reset_in_seconds 100
           = .error (.typeError
               "unsupported operand types for subtraction: int and datetime") ∧
         si.reset_in_seconds 100
           = .error (.typeError
               "unsupported operand types for subtraction: int and datetime")) ∧
    get_stats_rate_limit
        { cache := { core := some ⟨5000, 5000, .int 3600, 0⟩,
                     search := some ⟨30, 30, .int 3600, 0⟩ },
          last_rate_limit_check := some 0, stats := {} } 10 (.error .connectionError)
      = .error (.typeError
          "unsupported operand types for subtraction: int and datetime") := by
  have h := C10_default_reset_time_is_int {} 0 100 .connectionError true rfl
  have h10 := C10_default_reset_time_is_int {} 10 100 .connectionError true rfl
  exact ⟨h.1 rfl,
    h10.2.2 { cache := { core := some ⟨5000, 5000, .int 3600, 0⟩,
                         search := some ⟨30, 30, .int 3600, 0⟩ },
              last_rate_limit_check := some 0, stats := {} }
      ⟨5000, 5000, .int 3600, 0⟩ 3600 0 (.error .connectionError) rfl rfl rfl
      (by norm_num [rate_limit_check_interval])⟩

/-! ## `_execute_with_retry` and `get_repository_info` -/

/-- A Python value as stored in a repository-record dictionary or a
database column: a string, an int, or `None`. -/
inductive PyVal where
  | vStr (s : String)
  | vInt (n : Int)
  | vNone
deriving DecidableEq, Repr

/-- Python `str()` of a `PyVal`. -/
def PyVal.pystr : PyVal → String
  | .vStr s => s
  | .vInt n => toString n
  | .vNone => "None"

/-- The attributes of a PyGithub `Repository` consumed by the `operation`
closure of `get_repository_info` (github_client.py lines 318-360).
Timestamps carry their `isoformat()` strings; the fallible secondary
fetches (contributors, commit count, releases) carry the outcome of their
single evaluation. -/
structure Repo where
  full_name : String
  name : String
  description : Option String
  html_url : String
  has_get_topics : Bool
  topics : List String
  license_name : Option String
  created_at : Option String
  updated_at : Option String
  stargazers_count : Int
  forks_count : Int
  open_issues_count : Int
  pushed_at : Option String
  contributorsResult : Except PyExn Int
  commitsResult : Except PyExn Int
  releasesResult : Except PyExn (List String)
deriving Repr

/-- The dictionary built by the `operation` closure of
`get_repository_info`. -/
structure RepoInfo where
  id : String
  name : String
  description : String
  url : String
  topics : String
  license : String
  created_at : Option String
  updated_at : Option String
  stars : Int
  forks : Int
  issues : Int
  contributors : PyVal
  commits : Int
  last_commit : Option String
  latest_release : Option String
deriving Repr

/-- The body of the `operation` closure of `get_repository_info` after the
primary `get_repo` call succeeded (github_client.py lines 322-360): each
secondary fetch is caught locally and replaced by its fallback. -/
def buildRepoInfo (repo : Repo) : RepoInfo :=
  let total_contributors : PyVal :=
    match repo.contributorsResult with
    | .ok n => .vInt n
    | .error _ => .vStr "5000+"
  let total_commits : Int :=
    match repo.commitsResult with
    | .ok n => n
    | .error _ => 0
  let latest_release : Option String :=
    match repo.releasesResult with
    | .ok tags => match tags with
      | [] => none
      | t :: _ => some t
    | .error _ => none
  { id := repo.full_name
    name := repo.name
    description := (repo.description.getD "")
    url := repo.html_url
    topics := if repo.has_get_topics then String.intercalate ", " repo.topics else ""
    license := (repo.license_name.getD "")
    created_at := repo.created_at
    updated_at := repo.updated_at
    stars := repo.stargazers_count
    forks := repo.forks_count
    issues := repo.open_issues_count
    contributors := total_contributors
    commits := total_commits
    last_commit := repo.pushed_at
    latest_release := latest_release }

/-- The environment of a client run: the outcome of the k-th
`get_rate_limit()` network call, the k-th sample of `datetime.utcnow()`,
and the random draws of each attempt. -/
structure ClientEnv where
  fetch : Nat → Except PyExn RateLimitFetch
  time : Nat → Int
  waitPad : Nat → ℚ
  pad : Nat → ℚ
  jitterR : Nat → ℚ

/-- The client state together with the environment consumption counters:
how many operation invocations, network quota fetches and clock samples
have happened so far. -/
structure ExecState where
  client : ClientState := {}
  opCount : Nat := 0
  fetchCount : Nat := 0
  timeCount : Nat := 0
deriving Repr

/-- `isinstance(e, GithubException) and e.status == 403`. -/
def is_gh_403 : PyExn → Bool
  | .githubException s => s = 403
  | _ => false

/-- The pre-operation rate check of `_execute_with_retry` (github_client.py
lines 220-228): skipped on the very first attempt and when the cache is
empty; otherwise consult the tracker and, if the cached quota is exhausted,
sleep until the reset (evaluating `reset_in_seconds`, which can raise) and
force-refresh.  The returned `Except` is the exception raised inside the
`try` block, if any. -/
def rateCheck (env : ClientEnv) (attempt : Nat) (st : ExecState) :
    Except PyExn Unit × ExecState :=
  if attempt > 0 ∧ st.client.cache.isEmpty = false then
    let now := env.time st.timeCount
    let st := { st with timeCount := st.timeCount + 1 }
    let f := env.fetch st.fetchCount
    let st := { st with fetchCount := st.fetchCount + 1 }
    match get_rate_limit_info st.client now f .core with
    | .error e => (.error e, st)
    | .ok (rate_info, c) =>
      let st := { st with client := c }
      match rate_info with
      | none => (.ok (), st)
      | some info =>
        if info.is_exhausted then
          let now2 := env.time st.timeCount
          let st := { st with timeCount := st.timeCount + 1 }
          match info.reset_in_seconds now2 with
          | .error e => (.error e, st)
          | .ok r =>
            let wait : ℚ := (r : ℚ) + env.waitPad attempt
            let st := { st with client := { st.client with stats :=
              { st.client.stats with
                  total_wait_time := st.client.stats.total_wait_time + wait } } }
            let now3 := env.time st.timeCount
            let st := { st with timeCount := st.timeCount + 1 }
            let f2 := env.fetch st.fetchCount
            let st := { st with fetchCount := st.fetchCount + 1 }
            match update_rate_limit_info st.client now3 f2 true with
            | .error e => (.error e, st)
            | .ok c2 => (.ok (), { st with client := c2 })
        else (.ok (), st)
  else (.ok (), st)

/-- Whether the except-handler re-raises (ending the loop with that
exception) or retries. -/
inductive HandlerOut where
  | raised (e : PyExn)
  | retry
deriving DecidableEq, Repr

/-- The rate-limit-reset lookup of the except handler (github_client.py
lines 252-256): only for 403 errors; evaluates `reset_in_seconds`, whose
`TypeError` would propagate out of `_execute_with_retry`. -/
def resetLookup (env : ClientEnv) (e : PyExn) (st : ExecState) :
    Except PyExn (Option Int) × ExecState :=
  if is_gh_403 e then
    let now := env.time st.timeCount
    let st := { st with timeCount := st.timeCount + 1 }
    let f := env.fetch st.fetchCount
    let st := { st with fetchCount := st.fetchCount + 1 }
    match get_rate_limit_info st.client now f .core with
    | .error e2 => (.error e2, st)
    | .ok (none, c) => (.ok none, { st with client := c })
    | .ok (some info, c) =>
      let st := { st with client := c }
      let now2 := env.time st.timeCount
      let st := { st with timeCount := st.timeCount + 1 }
      match info.reset_in_seconds now2 with
      | .error e2 => (.error e2, st)
      | .ok r => (.ok (some r), st)
  else (.ok none, st)

/-- The tail of the except handler once a retry was decided
(github_client.py lines 258-271): compute the backoff delay, sleep, tally
the statistics, and force-refresh the tracker after a rate-limit error. -/
def backoffPart (env : ClientEnv) (config : RetryConfig) (attempt : Nat)
    (e : PyExn) (rlr : Option Int) (st : ExecState) : HandlerOut × ExecState :=
  let delay := calculate_backoff_delay attempt config rlr (env.pad attempt) (env.jitterR attempt)
  let st := { st with client := { st.client with stats :=
    { st.client.stats with
        retries_performed := st.client.stats.retries_performed + 1,
        total_wait_time := st.client.stats.total_wait_time + delay } } }
  if is_gh_403 e then
    let now := env.time st.timeCount
    let st := { st with timeCount := st.timeCount + 1 }
    let f := env.fetch st.fetchCount
    let st := { st with fetchCount := st.fetchCount + 1 }
    match update_rate_limit_info st.client now f true with
    | .error e2 => (.raised e2, st)
    | .ok c => (.retry, { st with client := c })
  else (.retry, st)

/-- The `except Exception` handler of `_execute_with_retry`
(github_client.py lines 240-271): tally the failure, count rate-limit hits,
decide via `_should_retry` whether to break (re-raising the exception) or
to back off and retry. -/
def exceptHandler (env : ClientEnv) (config : RetryConfig) (attempt : Nat)
    (e : PyExn) (st : ExecState) : HandlerOut × ExecState :=
  let st := { st with client := { st.client with stats :=
    { st.client.stats with failed_requests := st.client.stats.failed_requests + 1 } } }
  let st :=
    if is_gh_403 e then
      { st with client := { st.client with stats :=
        { st.client.stats with rate_limit_hits := st.client.stats.rate_limit_hits + 1 } } }
    else st
  if should_retry e attempt config = false then
    (.raised e, st)
  else
    match resetLookup env e st with
    | (.error e2, st) => (.raised e2, st)
    | (.ok rlr, st) => backoffPart env config attempt e rlr st

/-- The attempt loop of `GitHubAPIClient._execute_with_retry`
(github_client.py lines 209-274), by remaining attempts.  The k-th actual
invocation of `operation` returns `operation k`; `opCount` counts them.
The fuel-exhausted case models `raise last_exception` with
`last_exception = None`, which is unreachable because the loop starts with
`max_retries + 1 ≥ 1` attempts. -/
def execute_with_retry_loop {T : Type} (env : ClientEnv)
    (operation : Nat → Except PyExn T) (config : RetryConfig) :
    Nat → Nat → ExecState → Except PyExn T × ExecState
  | 0, _, st => (.error (.typeError "exceptions must derive from BaseException"), st)
  | n + 1, attempt, st =>
    match rateCheck env attempt st with
    | (.error e, st) =>
        (match exceptHandler env config attempt e st with
         | (.raised ex, st) => (.error ex, st)
         | (.retry, st) => execute_with_retry_loop env operation config n (attempt + 1) st)
    | (.ok (), st) =>
        let st := { st with client := { st.client with stats :=
          { st.client.stats with
              requests_made := st.client.stats.requests_made + 1 } } }
        let r := operation st.opCount
        let st := { st with opCount := st.opCount + 1 }
        match r with
        | .ok v =>
            (.ok v, { st with client := { st.client with stats :=
              { st.client.stats with
                  successful_requests := st.client.stats.successful_requests + 1 } } })
        | .error e =>
            match exceptHandler env config attempt e st with
            | (.raised ex, st) => (.error ex, st)
            | (.retry, st) => execute_with_retry_loop env operation config n (attempt + 1) st

/-- `GitHubAPIClient._execute_with_retry` (github_client.py lines 209-274):
run the loop over `range(config.max_retries + 1)` attempts. -/
def execute_with_retry {T : Type} (env : ClientEnv)
    (operation : Nat → Except PyExn T) (config : RetryConfig) (st : ExecState) :
    Except PyExn T × ExecState :=
  execute_with_retry_loop env operation config (config.max_retries + 1) 0 st

/-- `GitHubAPIClient.get_repository_info` (github_client.py lines 308-372):
run the repo-info operation with retries; a terminal `GithubException` with
status 404 becomes a normal `None` result, every other exception
propagates.  `getRepo k` is the outcome of the k-th primary
`self._github.get_repo(...)` call. -/
def get_repository_info (env : ClientEnv) (getRepo : Nat → Except PyExn Repo)
    (config : RetryConfig) (st : ExecState) :
    Except PyExn (Option RepoInfo) × ExecState :=
  match execute_with_retry env (fun k => (getRepo k).map buildRepoInfo) config st with
  | (.ok info, st') => (.ok (some info), st')
  | (.error e, st') =>
      match e with
      | .githubException status =>
          if status = 404 then (.ok none, st') else (.error e, st')
      | _ => (.error e, st')

/-- Invariant of every reachable rate-limit cache: an exhausted cached
entry always carries a `datetime` reset time (the plain-int defaults always
report full quota), so the exhaustion wait can evaluate
`reset_in_seconds`. -/
def exhaustedHasDt (c : RateLimitCache) : Prop :=
  (∀ i, c.core = some i → i.is_exhausted = true → ∃ u, i.reset_time = PyTime.dt u) ∧
  (∀ i, c.search = some i → i.is_exhausted = true → ∃ u, i.reset_time = PyTime.dt u)

/-- `_update_rate_limit_info` always returns normally, preserves the
exhausted-entries-have-datetime invariant, and never touches the
statistics. -/
theorem update_rate_limit_info_ok (s : ClientState) (now : Int)
    (fetch : Except PyExn RateLimitFetch) (force : Bool) :
    ∃ s', update_rate_limit_info s now fetch force = .ok s' ∧
      (exhaustedHasDt s.cache → exhaustedHasDt s'.cache) ∧
      s'.stats = s.stats := by
  have hdflt : ∀ a b : Int,
      exhaustedHasDt ⟨some ⟨5000, 5000, .int a, 0⟩, some ⟨30, 30, .int b, 0⟩⟩ := by
    intro a b
    constructor <;>
      (intro i hi hex
       rw [Option.some.injEq] at hi
       subst hi
       simp [RateLimitInfo.is_exhausted] at hex)
  unfold update_rate_limit_info
  rcases fetch with e | v
  · dsimp only
    split_ifs with h1 h2
    · exact ⟨s, rfl, id, rfl⟩
    · exact ⟨_, rfl, fun _ => hdflt _ _, rfl⟩
    · exact ⟨s, rfl, id, rfl⟩
  · cases v with
    | withCore c sr =>
      dsimp only
      split_ifs with h1
      · exact ⟨s, rfl, id, rfl⟩
      · refine ⟨_, rfl, fun _ => ⟨?_, ?_⟩, rfl⟩ <;>
          (intro i hi _
           rw [Option.some.injEq] at hi
           subst hi
           exact ⟨_, rfl⟩)
    | flat c =>
      dsimp only
      split_ifs with h1
      · exact ⟨s, rfl, id, rfl⟩
      · refine ⟨_, rfl, fun _ => ⟨?_, ?_⟩, rfl⟩
        · intro i hi _
          rw [Option.some.injEq] at hi
          subst hi
          exact ⟨_, rfl⟩
        · intro i hi hex
          rw [Option.some.injEq] at hi
          subst hi
          simp [RateLimitInfo.is_exhausted] at hex
    | unknown =>
      dsimp only
      split_ifs with h1
      · exact ⟨s, rfl, id, rfl⟩
      · exact ⟨_, rfl, fun _ => hdflt _ _, rfl⟩

/-- Under the invariant, the pre-operation rate check never raises: it
returns normally with the invariant intact and no operation invoked. -/
theorem rateCheck_ok (env : ClientEnv) (attempt : Nat) (st : ExecState)
    (h : exhaustedHasDt st.client.cache) :
    ∃ st', rateCheck env attempt st = (.ok (), st') ∧
      exhaustedHasDt st'.client.cache ∧ st'.opCount = st.opCount := by
  unfold rateCheck
  dsimp only
  split_ifs with hgate
  · obtain ⟨s₁, hs₁, hpres, _⟩ := update_rate_limit_info_ok st.client
      (env.time st.timeCount) (env.fetch st.fetchCount) false
    have hget : get_rate_limit_info st.client (env.time st.timeCount)
        (env.fetch st.fetchCount) .core = .ok (s₁.cache.get .core, s₁) := by
      unfold get_rate_limit_info
      rw [hs₁]
    rw [hget]
    dsimp only
    have h₁ : exhaustedHasDt s₁.cache := hpres h
    rcases hcore : s₁.cache.get .core with _ | info
    · exact ⟨_, rfl, h₁, rfl⟩
    · dsimp only
      by_cases hex : info.is_exhausted = true
      · rw [if_pos hex]
        obtain ⟨u, hu⟩ := h₁.1 info hcore hex
        have hris : info.reset_in_seconds (env.time (st.timeCount + 1))
            = .ok (max 0 (u - env.time (st.timeCount + 1))) := by
          unfold RateLimitInfo.reset_in_seconds
          rw [hu]
        rw [hris]
        dsimp only
        obtain ⟨s₂, hs₂, hpres₂, _⟩ := update_rate_limit_info_ok
          { s₁ with stats :=
            { s₁.stats with total_wait_time := s₁.stats.total_wait_time +
              ((max 0 (u - env.time (st.timeCount + 1)) : Int) + env.waitPad attempt) } }
          (env.time (st.timeCount + 1 + 1)) (env.fetch (st.fetchCount + 1)) true
        rw [hs₂]
        exact ⟨_, rfl, hpres₂ h₁, rfl⟩
      · rw [if_neg hex]
        exact ⟨_, rfl, h₁, rfl⟩
  · exact ⟨st, rfl, h, rfl⟩

/-- The rate check is skipped entirely on the very first attempt. -/
theorem rateCheck_first_attempt (env : ClientEnv) (st : ExecState) :
    rateCheck env 0 st = (.ok (), st) := by
  unfold rateCheck
  rw [if_neg (by simp)]

/-- A 404 is never retried, whatever the attempt and configuration. -/
theorem should_retry_404 (attempt : Nat) (config : RetryConfig) :
    should_retry (.githubException 404) attempt config = false := by
  unfold should_retry
  split_ifs with h1
  · rfl
  · norm_num

/-- A server error (status ≥ 500) is retried exactly while attempts
remain. -/
theorem should_retry_5xx (s : Int) (attempt : Nat) (config : RetryConfig)
    (hs : 500 ≤ s) :
    should_retry (.githubException s) attempt config
      = decide (attempt < config.max_retries) := by
  unfold should_retry
  split_ifs with h1
  · have : ¬ attempt < config.max_retries := by omega
    simp [this]
  · dsimp only
    rw [if_neg (show ¬s = 403 by omega), if_pos (show s ≥ 500 by omega)]
    have : attempt < config.max_retries := by omega
    simp [this]

/-- A GithubException with status ≥ 404 is not a 403. -/
theorem is_gh_403_of_ge (s : Int) (hs : 404 ≤ s) :
    is_gh_403 (.githubException s) = false := by
  unfold is_gh_403
  simp only [decide_eq_false_iff_not]
  omega

/-- The except handler on a non-403 exception that `_should_retry`
rejects: the exception is re-raised after the failure tally. -/
theorem exceptHandler_raise (env : ClientEnv) (config : RetryConfig)
    (attempt : Nat) (e : PyExn) (st : ExecState)
    (h403 : is_gh_403 e = false)
    (h : should_retry e attempt config = false) :
    exceptHandler env config attempt e st =
      (.raised e,
        { st with client := { st.client with stats :=
          { st.client.stats with
              failed_requests := st.client.stats.failed_requests + 1 } } }) := by
  unfold exceptHandler
  dsimp only
  rw [if_pos h, if_neg (by simp [h403])]

/-- The except handler on a non-403 exception that `_should_retry`
accepts: the failure and the retry are tallied (with the backoff delay
added to the cumulative wait time) and the loop continues; the cache and
`opCount` are untouched. -/
theorem exceptHandler_retry_not403 (env : ClientEnv) (config : RetryConfig)
    (attempt : Nat) (e : PyExn) (st : ExecState)
    (h403 : is_gh_403 e = false)
    (h : should_retry e attempt config = true) :
    exceptHandler env config attempt e st =
      (.retry,
        { st with client := { st.client with stats :=
          { st.client.stats with
              failed_requests := st.client.stats.failed_requests + 1,
              retries_performed := st.client.stats.retries_performed + 1,
              total_wait_time := st.client.stats.total_wait_time +
                calculate_backoff_delay attempt config none
                  (env.pad attempt) (env.jitterR attempt) } } }) := by
  unfold exceptHandler resetLookup backoffPart
  dsimp only
  rw [if_neg (by simp [h])]
  rw [if_neg (by simp [h403])]
  dsimp only
  rw [if_neg (by simp [h403])]
  rw [if_neg (by simp [h403])]

/-- A GithubException that is neither a rate limit (403) nor a server
error (≥ 500) is terminal: never retried. -/
theorem should_retry_terminal (s : Int) (attempt : Nat) (config : RetryConfig)
    (h403 : s ≠ 403) (h5 : s < 500) :
    should_retry (.githubException s) attempt config = false := by
  unfold should_retry
  split_ifs with h1
  · rfl
  · dsimp only
    rw [if_neg h403, if_neg (show ¬s ≥ 500 by omega), if_neg (show ¬s = 502 by omega),
      if_neg (show ¬s = 503 by omega), if_neg (show ¬s = 504 by omega)]

/-- A GithubException with a status other than 403 is not a 403. -/
theorem is_gh_403_ne (s : Int) (hs : s ≠ 403) :
    is_gh_403 (.githubException s) = false := by
  unfold is_gh_403
  simp only [decide_eq_false_iff_not]
  exact hs

/-- When every invocation of the operation fails with a fixed terminal
GithubException (neither 403 nor ≥ 500), `_execute_with_retry` invokes the
operation exactly once and re-raises that exception. -/
theorem execute_with_retry_terminal {T : Type} (env : ClientEnv)
    (operation : Nat → Except PyExn T) (config : RetryConfig) (st : ExecState)
    (s : Int) (hs403 : s ≠ 403) (hs5 : s < 500)
    (hop : ∀ k, operation k = .error (.githubException s)) :
    ∃ st', execute_with_retry env operation config st
        = (.error (.githubException s), st') ∧ st'.opCount = st.opCount + 1 := by
  unfold execute_with_retry
  simp only [execute_with_retry_loop]
  rw [rateCheck_first_attempt]
  dsimp only
  rw [hop st.opCount]
  dsimp only
  rw [exceptHandler_raise env config 0 (.githubException s) _
    (is_gh_403_ne s hs403) (should_retry_terminal s 0 config hs403 hs5)]
  exact ⟨_, rfl, rfl⟩

/-- C4: a 404 consumes no retry — the operation runs exactly once — and
`get_repository_info` translates a terminal 404 of the primary fetch into a
normal `None` result, while any other terminal GithubException (neither 403
nor a 5xx) still propagates after its single attempt. -/
theorem C4_terminal_404_single_attempt {T : Type} (env : ClientEnv)
    (operation : Nat → Except PyExn T) (getRepo : Nat → Except PyExn Repo)
    (config : RetryConfig) (st : ExecState) :
    ((∀ k, operation k = .error (.githubException 404)) →
       ∃ st', execute_with_retry env operation config st
           = (.error (.githubException 404), st') ∧ st'.opCount = st.opCount + 1) ∧
    ((∀ k, getRepo k = .error (.githubException 404)) →
       ∃ st', get_repository_info env getRepo config st = (.ok none, st') ∧
         st'.opCount = st.opCount + 1) ∧
    (∀ s : Int, s ≠ 404 → s ≠ 403 → s < 500 →
       (∀ k, getRepo k = .error (.githubException s)) →
       ∃ st', get_repository_info env getRepo config st
           = (.error (.githubException s), st') ∧ st'.opCount = st.opCount + 1) := by
  refine ⟨?_, ?_, ?_⟩
  · intro hop
    exact execute_with_retry_terminal env operation config st 404 (by omega)
      (by omega) hop
  · intro hg
    obtain ⟨st', heq, hcnt⟩ := execute_with_retry_terminal env
      (fun k => (getRepo k).map buildRepoInfo) config st 404 (by omega) (by omega)
      (fun k => by dsimp only; rw [hg k]; rfl)
    refine ⟨st', ?_, hcnt⟩
    unfold get_repository_info
    rw [heq]
    dsimp only
    rw [if_pos rfl]
  · intro s hs404 hs403 hs5 hg
    obtain ⟨st', heq, hcnt⟩ := execute_with_retry_terminal env
      (fun k => (getRepo k).map buildRepoInfo) config st s hs403 hs5
      (fun k => by dsimp only; rw [hg k]; rfl)
    refine ⟨st', ?_, hcnt⟩
    unfold get_repository_info
    rw [heq]
    dsimp only
    rw [if_neg hs404]

/-- C4 witness: with `max_retries = 5`, a primary fetch that always 404s
yields `None` after exactly one invocation, and one that always fails with
401 propagates the 401 after exactly one invocation. -/
theorem C4_terminal_404_single_attempt_witness :
    (∃ st', get_repository_info
        ⟨fun _ => .ok .unknown, fun _ => 0, fun _ => 1, fun _ => 1, fun _ => 1⟩
        (fun _ => .error (.githubException 404)) {} {}
      = (.ok none, st') ∧ st'.opCount = 1) ∧
    (∃ st', get_repository_info
        ⟨fun _ => .ok .unknown, fun _ => 0, fun _ => 1, fun _ => 1, fun _ => 1⟩
        (fun _ => .error (.githubException 401)) {} {}
      = (.error (.githubException 401), st') ∧ st'.opCount = 1) := by
  have h := C4_terminal_404_single_attempt (T := RepoInfo)
    ⟨fun _ => .ok .unknown, fun _ => 0, fun _ => 1, fun _ => 1, fun _ => 1⟩
    (fun _ => .error (.githubException 404)) (fun _ => .error (.githubException 404)) {} {}
  have h2 := C4_terminal_404_single_attempt (T := RepoInfo)
    ⟨fun _ => .ok .unknown, fun _ => 0, fun _ => 1, fun _ => 1, fun _ => 1⟩
    (fun _ => .error (.githubException 401)) (fun _ => .error (.githubException 401)) {} {}
  exact ⟨h.2.1 (fun _ => rfl),
    h2.2.2 401 (by omega) (by omega) (by omega) (fun _ => rfl)⟩

/-- Under the cache invariant, a run in which every invocation fails with a
5xx makes exactly one invocation per attempt and ends with the last
exception: by induction over the remaining attempts. -/
theorem execute_loop_all_5xx {T : Type} (env : ClientEnv)
    (operation : Nat → Except PyExn T) (config : RetryConfig)
    (hop : ∀ k, ∃ s, operation k = .error (.githubException s) ∧ 500 ≤ s) :
    ∀ (m attempt : Nat) (st : ExecState),
      attempt + m = config.max_retries →
      exhaustedHasDt st.client.cache →
      ∃ st', execute_with_retry_loop env operation config (m + 1) attempt st
          = (operation (st.opCount + m), st') ∧
        st'.opCount = st.opCount + m + 1 := by
  intro m
  induction m with
  | zero =>
    intro attempt st hatt hdt
    obtain ⟨st₁, hrc, hdt₁, hcnt₁⟩ := rateCheck_ok env attempt st hdt
    obtain ⟨s, hs, hs5⟩ := hop st₁.opCount
    simp only [execute_with_retry_loop]
    rw [hrc]
    dsimp only
    rw [hs]
    dsimp only
    rw [exceptHandler_raise env config attempt (.githubException s) _
      (is_gh_403_ne s (by omega))
      (by rw [should_retry_5xx s attempt config hs5]
          simp only [decide_eq_false_iff_not]
          omega)]
    dsimp only
    have hkey : operation (st.opCount + 0) = Except.error (PyExn.githubException s) := by
      rw [Nat.add_zero, ← hcnt₁]
      exact hs
    simp only [hkey]
    refine ⟨_, rfl, ?_⟩
    dsimp only
    omega
  | succ m ih =>
    intro attempt st hatt hdt
    obtain ⟨st₁, hrc, hdt₁, hcnt₁⟩ := rateCheck_ok env attempt st hdt
    obtain ⟨s, hs, hs5⟩ := hop st₁.opCount
    simp only [execute_with_retry_loop]
    rw [hrc]
    dsimp only
    rw [hs]
    dsimp only
    rw [exceptHandler_retry_not403 env config attempt (.githubException s) _
      (is_gh_403_ne s (by omega))
      (by rw [should_retry_5xx s attempt config hs5]
          simp only [decide_eq_true_eq]
          omega)]
    have step : ∀ Y : ExecState, Y.opCount = st₁.opCount + 1 →
        exhaustedHasDt Y.client.cache →
        ∃ st', execute_with_retry_loop env operation config (m + 1) (attempt + 1) Y
            = (operation (st.opCount + (m + 1)), st') ∧
          st'.opCount = st.opCount + (m + 1) + 1 := by
      intro Y hY hYc
      obtain ⟨st', heq, hcnt⟩ := ih (attempt + 1) Y (by omega) hYc
      have harg : Y.opCount + m = st.opCount + (m + 1) := by omega
      exact ⟨st', by rw [heq, harg], by omega⟩
    dsimp only
    exact step _ rfl hdt₁

/-- C5: when every invocation of the operation fails with a 5xx server
error, `_execute_with_retry` invokes the operation exactly
`max_retries + 1` times and then re-raises the exception of the last
invocation.  The hypothesis on the cache is the invariant of every
reachable client state (the plain-int default entries always report full
quota), which keeps the pre-attempt exhaustion wait well-typed. -/
theorem C5_5xx_exhausts_retries_then_raises {T : Type} (env : ClientEnv)
    (operation : Nat → Except PyExn T) (config : RetryConfig) (st : ExecState)
    (hdt : exhaustedHasDt st.client.cache)
    (hop : ∀ k, ∃ s, operation k = .error (.githubException s) ∧ 500 ≤ s) :
    ∃ st', execute_with_retry env operation config st
        = (operation (st.opCount + config.max_retries), st') ∧
      st'.opCount = st.opCount + config.max_retries + 1 := by
  unfold execute_with_retry
  exact execute_loop_all_5xx env operation config hop config.max_retries 0 st
    (by omega) hdt

/-- C5 witness: with `max_retries = 2` and an operation that always fails
with a 500, the loop makes exactly three invocations and raises the 500. -/
theorem C5_5xx_exhausts_retries_then_raises_witness :
    ∃ st', execute_with_retry
        ⟨fun _ => .ok .unknown, fun _ => 0, fun _ => 1, fun _ => 1, fun _ => 1⟩
        (fun _ => (.error (.githubException 500) : Except PyExn Unit))
        { max_retries := 2 } {}
      = (.error (.githubException 500), st') ∧ st'.opCount = 3 := by
  obtain ⟨st', heq, hcnt⟩ := C5_5xx_exhausts_retries_then_raises
    ⟨fun _ => .ok .unknown, fun _ => 0, fun _ => 1, fun _ => 1, fun _ => 1⟩
    (fun _ => (.error (.githubException 500) : Except PyExn Unit))
    { max_retries := 2 } {}
    (by unfold exhaustedHasDt
        exact ⟨fun i hi _ => (nomatch hi), fun i hi _ => (nomatch hi)⟩)
    (fun k => ⟨500, rfl, by norm_num⟩)
  exact ⟨st', heq, hcnt⟩

/-! ## History-tracking upsert (`nuggit/util/db.py`) -/

/-- Association-list lookup, the shallow model of Python dict access and of
reading a column of a stored row (`none` is a missing key / SQL NULL). -/
def alookup {α β : Type} [DecidableEq α] : List (α × β) → α → Option β
  | [], _ => none
  | (k, v) :: rest, key => if k = key then some v else alookup rest key

/-- Association-list update-or-insert, the model of assigning a dict key or
a table row by primary key. -/
def aset {α β : Type} [DecidableEq α] : List (α × β) → α → β → List (α × β)
  | [], key, v => [(key, v)]
  | (k, w) :: rest, key, v =>
      if k = key then (k, v) :: rest else (k, w) :: aset rest key v

/-- Python `dict.setdefault`. -/
def setdefault (d : List (String × PyVal)) (k : String) (v : PyVal) :
    List (String × PyVal) :=
  if (alookup d k).isSome then d else d ++ [(k, v)]

/-- `available_cols` (db.py lines 241-245). -/
def available_cols : List String :=
  ["id", "name", "description", "url", "topics", "license",
   "created_at", "updated_at", "stars", "forks", "issues",
   "contributors", "commits", "last_commit", "tags", "notes", "last_synced",
   "version"]

/-- The `allowed_fields` set of `RepositoryHistoryModel.validate_field_name`
(validation.py lines 186-195); note that `id` and `version` are not in
it. -/
def allowed_history_fields : List String :=
  ["name", "description", "url", "topics", "license", "created_at",
   "updated_at", "stars", "forks", "issues", "contributors", "commits",
   "last_commit", "tags", "notes", "last_synced"]

/-- One character of the `[a-zA-Z0-9._-]` class of the repository-id
regex. -/
def validSegChar (c : Char) : Bool :=
  c.isAlphanum || c = '.' || c = '_' || c = '-'

/-- Splitting a character list on `/` (the shape test of the repository-id
regex). -/
def splitOnSlash : List Char → List (List Char)
  | [] => [[]]
  | c :: rest =>
      match splitOnSlash rest, decide (c = '/') with
      | r, true => [] :: r
      | [], false => [[c]]
      | p :: ps, false => (c :: p) :: ps

/-- The regex `^[a-zA-Z0-9._-]+/[a-zA-Z0-9._-]+$` of
`validate_repo_id`: exactly two non-empty slash-free segments of the
allowed character class. -/
def valid_repo_id (s : String) : Bool :=
  match splitOnSlash s.toList with
  | [a, b] => !a.isEmpty && !b.isEmpty && a.all validSegChar && b.all validSegChar
  | _ => false

/-- `validate_history_data` (validation.py lines 153-195, 335-341) on the
rows this code produces: repository-id format and length, field name in the
allowed set and length, value lengths.  `changed_at` always comes from
`utc_now_iso()` here and passes the timestamp validator, so it is not
re-checked. -/
def validate_history_ok (repo_id field old_value new_value : String) : Bool :=
  valid_repo_id repo_id && decide (1 ≤ repo_id.length) && decide (repo_id.length ≤ 255) &&
  decide (1 ≤ field.length) && decide (field.length ≤ 100) &&
  allowed_history_fields.contains field &&
  decide (old_value.length ≤ 2000) && decide (new_value.length ≤ 2000)

/-- A `repository_history` row (db.py lines 249-253). -/
structure HistoryRow where
  repo_id : String
  field : String
  old_value : String
  new_value : String
  changed_at : String
deriving DecidableEq, Repr

/-- The database state the upsert touches: the `repositories` table keyed
by the `id` column value, and the `repository_history` table in insertion
order.  (The `versions` table written by `add_origin_version` for new rows
is not involved in the modelled claims.) -/
structure DB where
  repositories : List (PyVal × List (String × PyVal)) := []
  history : List HistoryRow := []
deriving Repr

/-- SQLite `version + 1` in the `ON CONFLICT ... DO UPDATE SET` clause:
the unqualified `version` is the stored row's value; NULL propagates.
(Non-integer stored versions never arise: validation forces `version` to an
int ≥ 1.) -/
def sqlite_add_one : Option PyVal → PyVal
  | some (.vInt n) => .vInt (n + 1)
  | _ => .vNone

/-- `_insert_or_update_repo_impl` (db.py lines 223-299) on the validated
record.  `validate_repository_data` is a deterministic normalisation
(`RepositoryModel(**data).model_dump(exclude_none=True)`), so the function
is modelled on its output `validated`; `timestamp` is `utc_now_iso()`.
The record defaults `last_synced` to the timestamp and `version` to 1,
selects the stored row, writes one history row per field whose
stringified value changed (skipping rows that fail history validation),
and upserts: update sets every upserted column except `id` and `version`
and increments `version`; insert stores exactly the upserted columns. -/
def insert_or_update_repo_impl (db : DB) (validated : List (String × PyVal))
    (timestamp : String) : DB :=
  let validated := setdefault validated "last_synced" (.vStr timestamp)
  let validated := setdefault validated "version" (.vInt 1)
  let upsert_cols := available_cols.filter (fun c => (alookup validated c).isSome)
  match alookup validated "id" with
  | none => db
  | some idv =>
    match alookup db.repositories idv with
    | none =>
        let row := upsert_cols.filterMap
          (fun c => (alookup validated c).map (fun v => (c, v)))
        { db with repositories := aset db.repositories idv row }
    | some row =>
        let existing : List (String × PyVal) :=
          upsert_cols.map (fun c => (c, (alookup row c).getD .vNone))
        let history_params : List HistoryRow :=
          validated.filterMap (fun fv =>
            match alookup existing fv.1 with
            | none => none
            | some old =>
              if fv.2.pystr ≠ old.pystr then
                if validate_history_ok idv.pystr fv.1 old.pystr fv.2.pystr then
                  some ⟨idv.pystr, fv.1, old.pystr, fv.2.pystr, timestamp⟩
                else none
              else none)
        let row' := (upsert_cols.filter
            (fun c => decide (c ≠ "id" ∧ c ≠ "version"))).foldl
          (fun r c => aset r c ((alookup validated c).getD .vNone)) row
        let row' := aset row' "version" (sqlite_add_one (alookup row "version"))
        { db with
            repositories := aset db.repositories idv row',
            history := db.history ++ history_params }

/-- Looking up the key just set. -/
theorem alookup_aset_self {α β : Type} [DecidableEq α] (l : List (α × β)) (k : α) (v : β) :
    alookup (aset l k v) k = some v := by
  induction l with
  | nil => simp [aset, alookup]
  | cons p rest ih =>
    obtain ⟨k₀, w⟩ := p
    unfold aset
    by_cases h : k₀ = k
    · rw [if_pos h]
      unfold alookup
      rw [if_pos h]
    · rw [if_neg h]
      unfold alookup
      rw [if_neg h]
      exact ih

/-- Setting one key does not disturb another. -/
theorem alookup_aset_ne {α β : Type} [DecidableEq α] (l : List (α × β)) (k k' : α) (v : β)
    (h : k' ≠ k) :
    alookup (aset l k v) k' = alookup l k' := by
  induction l with
  | nil =>
    unfold aset alookup
    rw [if_neg (fun hk => h hk.symm)]
    rfl
  | cons p rest ih =>
    obtain ⟨k₀, w⟩ := p
    unfold aset
    by_cases h0 : k₀ = k
    · rw [if_pos h0]
      unfold alookup
      rw [if_neg (by rw [h0]; exact fun hk => h hk.symm),
        if_neg (by rw [h0]; exact fun hk => h hk.symm)]
    · rw [if_neg h0]
      unfold alookup
      by_cases h1 : k₀ = k'
      · rw [if_pos h1, if_pos h1]
      · rw [if_neg h1, if_neg h1]
        exact ih

/-- Lookup distributes over append. -/
theorem alookup_append {α β : Type} [DecidableEq α] (l₁ l₂ : List (α × β)) (k : α) :
    alookup (l₁ ++ l₂) k =
      match alookup l₁ k with
      | some v => some v
      | none => alookup l₂ k := by
  induction l₁ with
  | nil => rfl
  | cons p rest ih =>
    obtain ⟨k₀, w⟩ := p
    rw [List.cons_append]
    by_cases h : k₀ = k
    · simp [alookup, h]
    · simp [alookup, h, ih]

/-- `setdefault` never disturbs a different key. -/
theorem alookup_setdefault_ne (d : List (String × PyVal)) (k key : String) (v : PyVal)
    (h : k ≠ key) :
    alookup (setdefault d k v) key = alookup d key := by
  unfold setdefault
  split_ifs with h1
  · rfl
  · rw [alookup_append]
    cases hl : alookup d key with
    | some w => rfl
    | none =>
      dsimp only
      unfold alookup
      rw [if_neg h]
      rfl

/-- After `setdefault` the key is always present. -/
theorem alookup_setdefault_isSome (d : List (String × PyVal)) (k : String) (v : PyVal) :
    (alookup (setdefault d k v) k).isSome = true := by
  unfold setdefault
  split_ifs with h1
  · exact h1
  · rw [alookup_append]
    rw [Option.not_isSome_iff_eq_none] at h1
    rw [h1]
    dsimp only
    unfold alookup
    rw [if_pos rfl]
    rfl

/-- `setdefault` on an already-present key is the identity. -/
theorem setdefault_of_isSome (d : List (String × PyVal)) (k : String) (v : PyVal)
    (h : (alookup d k).isSome) :
    setdefault d k v = d := by
  unfold setdefault
  rw [if_pos h]

/-- `setdefault` on a missing key makes it hold the default. -/
theorem alookup_setdefault_none (d : List (String × PyVal)) (k : String) (v : PyVal)
    (h : alookup d k = none) :
    alookup (setdefault d k v) k = some v := by
  unfold setdefault
  rw [if_neg (by simp [h]), alookup_append, h]
  dsimp only
  unfold alookup
  rw [if_pos rfl]

/-- A key that lookup misses is not among the keys. -/
theorem alookup_eq_none_not_mem (d : List (String × PyVal)) (k : String)
    (h : alookup d k = none) : k ∉ d.map Prod.fst := by
  induction d with
  | nil => simp
  | cons p rest ih =>
    obtain ⟨k₀, w⟩ := p
    unfold alookup at h
    by_cases hk : k₀ = k
    · rw [if_pos hk] at h
      exact Option.noConfusion h
    · rw [if_neg hk] at h
      simp only [List.map_cons, List.mem_cons]
      push_neg
      exact ⟨fun hkk => hk hkk.symm, ih h⟩

/-- `setdefault` preserves distinctness of the keys. -/
theorem nodup_setdefault (d : List (String × PyVal)) (k : String) (v : PyVal)
    (h : (d.map Prod.fst).Nodup) :
    ((setdefault d k v).map Prod.fst).Nodup := by
  unfold setdefault
  split_ifs with h1
  · exact h
  · rw [List.map_append]
    refine List.Nodup.append h (by simp) ?_
    intro a ha hb
    simp only [List.map_cons, List.map_nil, List.mem_singleton] at hb
    rw [Option.not_isSome_iff_eq_none] at h1
    exact alookup_eq_none_not_mem d k h1 (hb ▸ ha)

/-- On a duplicate-free dict, membership determines the lookup. -/
theorem alookup_mem_nodup {d : List (String × PyVal)} {k : String} {v : PyVal}
    (hnd : (d.map Prod.fst).Nodup) (hmem : (k, v) ∈ d) :
    alookup d k = some v := by
  induction d with
  | nil => cases hmem
  | cons p rest ih =>
    obtain ⟨k₀, w⟩ := p
    rcases List.mem_cons.mp hmem with h | h
    · rw [Prod.mk.injEq] at h
      obtain ⟨h1, h2⟩ := h
      unfold alookup
      rw [if_pos h1.symm, h2]
    · have hk : k₀ ≠ k := by
        intro hk
        subst hk
        have : k₀ ∈ rest.map Prod.fst := by
          exact List.mem_map.mpr ⟨(k₀, v), h, rfl⟩
        simp only [List.map_cons, List.nodup_cons] at hnd
        exact hnd.1 this
      unfold alookup
      rw [if_neg hk]
      exact ih (by simpa using (List.nodup_cons.mp (by simpa using hnd)).2) h

/-- One-step unfolding of `alookup` on a cons cell. -/
theorem alookup_cons {α β : Type} [DecidableEq α] (k₀ : α) (w : β)
    (rest : List (α × β)) (key : α) :
    alookup ((k₀, w) :: rest) key = if k₀ = key then some w else alookup rest key := rfl

/-- Column lookup in the freshly inserted row: exactly the upserted
columns, holding the record's values. -/
theorem alookup_insert_row (cols : List String) (d : List (String × PyVal)) (c : String) :
    alookup (cols.filterMap (fun c => (alookup d c).map (fun v => (c, v)))) c
      = if c ∈ cols ∧ (alookup d c).isSome then alookup d c else none := by
  induction cols with
  | nil => simp [alookup]
  | cons c₀ cols ih =>
    rw [List.filterMap_cons]
    cases hl : alookup d c₀ with
    | none =>
      simp only [Option.map_none']
      rw [ih]
      by_cases hc : c = c₀
      · subst hc
        rw [hl]
        simp
      · by_cases hm : c ∈ cols <;> simp [hm, hc]
    | some v =>
      simp only [Option.map_some']
      rw [alookup_cons]
      by_cases hc : c₀ = c
      · subst hc
        rw [if_pos rfl]
        simp [hl]
      · have hcc : ¬c = c₀ := fun hx => hc hx.symm
        rw [if_neg hc, ih]
        by_cases hm : c ∈ cols <;> simp [hm, hcc]

/-- Lookup in the `existing` dict built over the selected columns. -/
theorem alookup_existing (cols : List String) (g : String → PyVal) (c : String) :
    alookup (cols.map (fun c => (c, g c))) c
      = if c ∈ cols then some (g c) else none := by
  induction cols with
  | nil => rfl
  | cons c₀ cols ih =>
    rw [List.map_cons]
    unfold alookup
    by_cases h : c₀ = c
    · subst h
      simp
    · have hcc : ¬c = c₀ := fun hx => h hx.symm
      rw [if_neg h, ih]
      by_cases hm : c ∈ cols <;> simp [hm, hcc]

/-- Columns outside the update list are untouched by the SET fold. -/
theorem alookup_foldl_aset_ne (cols : List String) (g : String → PyVal)
    (row : List (String × PyVal)) (f : String) (hf : f ∉ cols) :
    alookup (cols.foldl (fun r c => aset r c (g c)) row) f = alookup row f := by
  induction cols generalizing row with
  | nil => rfl
  | cons c₀ cols ih =>
    rw [List.foldl_cons]
    rw [ih _ (fun hk => hf (List.mem_cons_of_mem _ hk))]
    exact alookup_aset_ne row c₀ f (g c₀) (fun hk => hf (hk ▸ List.mem_cons_self c₀ cols))

/-- Columns in the (duplicate-free) update list get the assigned value. -/
theorem alookup_foldl_aset_mem (cols : List String) (hnd : cols.Nodup)
    (g : String → PyVal) (row : List (String × PyVal)) (f : String) (hf : f ∈ cols) :
    alookup (cols.foldl (fun r c => aset r c (g c)) row) f = some (g f) := by
  induction cols generalizing row with
  | nil => cases hf
  | cons c₀ cols ih =>
    rw [List.foldl_cons]
    rcases List.mem_cons.mp hf with h | h
    · subst h
      rw [alookup_foldl_aset_ne cols g _ f (List.nodup_cons.mp hnd).1]
      exact alookup_aset_self row f (g f)
    · exact ih (List.nodup_cons.mp hnd).2 _ h

/-- The two `setdefault` lines are idempotent: the implementation applied
to the already-defaulted record coincides with the original call. -/
theorem impl_setdefaults (db : DB) (R : List (String × PyVal)) (ts : String) :
    insert_or_update_repo_impl db R ts
      = insert_or_update_repo_impl db
          (setdefault (setdefault R "last_synced" (.vStr ts)) "version" (.vInt 1)) ts := by
  have pf1 : (alookup (setdefault (setdefault R "last_synced" (.vStr ts)) "version"
      (.vInt 1)) "last_synced").isSome = true := by
    rw [alookup_setdefault_ne (setdefault R "last_synced" (.vStr ts)) "version"
      "last_synced" (.vInt 1) (by decide)]
    exact alookup_setdefault_isSome R "last_synced" (.vStr ts)
  have pf2 : (alookup (setdefault (setdefault R "last_synced" (.vStr ts)) "version"
      (.vInt 1)) "version").isSome = true :=
    alookup_setdefault_isSome (setdefault R "last_synced" (.vStr ts)) "version" (.vInt 1)
  unfold insert_or_update_repo_impl
  dsimp only
  rw [setdefault_of_isSome _ "last_synced" (.vStr ts) pf1,
    setdefault_of_isSome _ "version" (.vInt 1) pf2]

/-- After an upsert of a record that already carries `last_synced` and
`version`, the stored row holds the record's value in every upserted column
other than `id` and `version`. -/
theorem after_upsert_row (db : DB) (V : List (String × PyVal)) (ts : String) (idv : PyVal)
    (hnd : (V.map Prod.fst).Nodup)
    (hid : alookup V "id" = some idv)
    (hsync : (alookup V "last_synced").isSome = true)
    (hver : (alookup V "version").isSome = true) :
    ∃ row₁, alookup (insert_or_update_repo_impl db V ts).repositories idv = some row₁ ∧
      ∀ f v, (f, v) ∈ V → f ≠ "id" → f ≠ "version" → f ∈ available_cols →
        alookup row₁ f = some v := by
  unfold insert_or_update_repo_impl
  dsimp only
  rw [setdefault_of_isSome V "last_synced" (.vStr ts) hsync,
    setdefault_of_isSome V "version" (.vInt 1) hver, hid]
  dsimp only
  cases hrow : alookup db.repositories idv with
  | none =>
    dsimp only
    refine ⟨_, alookup_aset_self _ _ _, ?_⟩
    intro f v hmem hfid hfver hfav
    have hv : alookup V f = some v := alookup_mem_nodup hnd hmem
    rw [alookup_insert_row]
    rw [if_pos ⟨List.mem_filter.mpr ⟨hfav, by rw [hv]; rfl⟩, by rw [hv]; rfl⟩]
    exact hv
  | some row =>
    dsimp only
    refine ⟨_, alookup_aset_self _ _ _, ?_⟩
    intro f v hmem hfid hfver hfav
    have hv : alookup V f = some v := alookup_mem_nodup hnd hmem
    rw [alookup_aset_ne _ _ _ _ hfver]
    rw [alookup_foldl_aset_mem _
      (((by decide : available_cols.Nodup).filter _).filter _) _ _ f
      (List.mem_filter.mpr
        ⟨List.mem_filter.mpr ⟨hfav, by rw [hv]; rfl⟩, by simp [hfid, hfver]⟩)]
    rw [hv]
    rfl

/-- Re-upserting a record whose non-`id`, non-`version` values already
match the stored row writes no history rows: matching columns produce no
diff and the `id`/`version` columns are rejected by history validation. -/
theorem upsert_same_no_history (db : DB) (V : List (String × PyVal)) (ts : String)
    (idv : PyVal) (row : List (String × PyVal))
    (hid : alookup V "id" = some idv)
    (hsync : (alookup V "last_synced").isSome = true)
    (hver : (alookup V "version").isSome = true)
    (hrow : alookup db.repositories idv = some row)
    (hmatch : ∀ f v, (f, v) ∈ V → f ≠ "id" → f ≠ "version" → f ∈ available_cols →
       alookup row f = some v) :
    (insert_or_update_repo_impl db V ts).history = db.history := by
  unfold insert_or_update_repo_impl
  dsimp only
  rw [setdefault_of_isSome V "last_synced" (.vStr ts) hsync,
    setdefault_of_isSome V "version" (.vInt 1) hver, hid]
  dsimp only
  rw [hrow]
  dsimp only
  have hparams : (V.filterMap (fun fv =>
      match alookup ((available_cols.filter
          (fun c => (alookup V c).isSome)).map
          (fun c => (c, (alookup row c).getD PyVal.vNone))) fv.1 with
      | none => none
      | some old =>
        if fv.2.pystr ≠ old.pystr then
          if validate_history_ok idv.pystr fv.1 old.pystr fv.2.pystr then
            some (HistoryRow.mk idv.pystr fv.1 old.pystr fv.2.pystr ts)
          else none
        else none)) = [] := by
    rw [List.filterMap_eq_nil_iff]
    rintro ⟨f, v⟩ hfv
    dsimp only
    rw [alookup_existing]
    by_cases hmem : f ∈ available_cols.filter (fun c => (alookup V c).isSome)
    · rw [if_pos hmem]
      dsimp only
      by_cases hfid : f = "id"
      · subst hfid
        split_ifs with h1 h2
        · unfold validate_history_ok at h2
          rw [(by decide : allowed_history_fields.contains "id" = false)] at h2
          simp at h2
        · rfl
        · rfl
      · by_cases hfver : f = "version"
        · subst hfver
          split_ifs with h1 h2
          · unfold validate_history_ok at h2
            rw [(by decide : allowed_history_fields.contains "version" = false)] at h2
            simp at h2
          · rfl
          · rfl
        · have hfav : f ∈ available_cols := (List.mem_filter.mp hmem).1
          rw [hmatch f v hfv hfid hfver hfav]
          rw [if_neg (by simp)]
    · rw [if_neg hmem]
  rw [hparams, List.append_nil]

/-- C8 counterexample: upserting the identical record twice — the record
not supplying `last_synced` — writes one history row on the second call
(`last_synced` is defaulted to the current timestamp, which moved on),
contradicting the claim that the second call writes zero history rows. -/
theorem C8_counterexample_last_synced_history :
    (insert_or_update_repo_impl (insert_or_update_repo_impl {}
        [("id", .vStr "octo/repo"), ("name", .vStr "repo"),
         ("url", .vStr "https://github.com/octo/repo"), ("version", .vInt 1)]
        "2024-01-01T00:00:00Z")
        [("id", .vStr "octo/repo"), ("name", .vStr "repo"),
         ("url", .vStr "https://github.com/octo/repo"), ("version", .vInt 1)]
        "2024-01-01T00:00:01Z").history
      = [⟨"octo/repo", "last_synced", "2024-01-01T00:00:00Z",
          "2024-01-01T00:00:01Z", "2024-01-01T00:00:01Z"⟩] ∧
    (insert_or_update_repo_impl {}
        [("id", .vStr "octo/repo"), ("name", .vStr "repo"),
         ("url", .vStr "https://github.com/octo/repo"), ("version", .vInt 1)]
        "2024-01-01T00:00:00Z").history = [] := by
  constructor <;> decide

/-- C8 (amended): (a) upserting the same record twice in a row writes zero
new history rows on the second call provided the record supplies
`last_synced` (otherwise the defaulted sync timestamp itself may register
as a change); (b) unconditionally, a history row is written only when the
stringified new value differs from the stringified stored value. -/
theorem C8_idempotent_upsert_and_diff_only :
    (∀ (db : DB) (R : List (String × PyVal)) (ts1 ts2 : String) (idv : PyVal),
       (R.map Prod.fst).Nodup →
       alookup R "id" = some idv →
       (alookup R "last_synced").isSome = true →
       (insert_or_update_repo_impl (insert_or_update_repo_impl db R ts1) R ts2).history
         = (insert_or_update_repo_impl db R ts1).history) ∧
    (∀ (db : DB) (R : List (String × PyVal)) (ts : String) (h : HistoryRow),
       h ∈ (insert_or_update_repo_impl db R ts).history →
       h ∈ db.history ∨ h.old_value ≠ h.new_value) := by
  constructor
  · intro db R ts1 ts2 idv hnd hid hsync
    have hV1 : setdefault R "last_synced" (.vStr ts1) = R :=
      setdefault_of_isSome _ _ _ hsync
    have hV2 : setdefault R "last_synced" (.vStr ts2) = R :=
      setdefault_of_isSome _ _ _ hsync
    rw [impl_setdefaults db R ts1, hV1,
      impl_setdefaults (insert_or_update_repo_impl db (setdefault R "version" (.vInt 1)) ts1) R ts2, hV2]
    have hndV := nodup_setdefault R "version" (.vInt 1) hnd
    have hidV : alookup (setdefault R "version" (.vInt 1)) "id" = some idv := by
      rw [alookup_setdefault_ne R "version" "id" (.vInt 1) (by decide)]
      exact hid
    have hsyncV : (alookup (setdefault R "version" (.vInt 1)) "last_synced").isSome = true := by
      rw [alookup_setdefault_ne R "version" "last_synced" (.vInt 1) (by decide)]
      exact hsync
    have hverV := alookup_setdefault_isSome R "version" (.vInt 1)
    obtain ⟨row₁, hrow₁, hmatch₁⟩ := after_upsert_row db (setdefault R "version" (.vInt 1))
      ts1 idv hndV hidV hsyncV hverV
    exact upsert_same_no_history _ (setdefault R "version" (.vInt 1)) ts2 idv row₁
      hidV hsyncV hverV hrow₁ hmatch₁
  · intro db R ts h hmem
    unfold insert_or_update_repo_impl at hmem
    dsimp only at hmem
    rcases hidv : alookup (setdefault (setdefault R "last_synced" (.vStr ts)) "version"
        (.vInt 1)) "id" with _ | idv
    · rw [hidv] at hmem
      exact Or.inl hmem
    · rw [hidv] at hmem
      dsimp only at hmem
      rcases hrow : alookup db.repositories idv with _ | row
      · rw [hrow] at hmem
        exact Or.inl hmem
      · rw [hrow] at hmem
        dsimp only at hmem
        rcases List.mem_append.mp hmem with hl | hr
        · exact Or.inl hl
        · obtain ⟨fv, _, hsome⟩ := List.mem_filterMap.mp hr
          rcases hex : alookup _ fv.1 with _ | old
          · rw [hex] at hsome
            exact Option.noConfusion hsome
          · rw [hex] at hsome
            dsimp only at hsome
            split_ifs at hsome with h1 h2
            all_goals first
              | exact Option.noConfusion hsome
              | (rw [Option.some.injEq] at hsome
                 subst hsome
                 exact Or.inr (fun hx => h1 hx.symm))

/-- C8 witness for part (a): a record carrying `last_synced` upserted twice
(fresh database) writes no history row on the second call; part (b) at the
counterexample's run: the single history row indeed has different old and
new values. -/
theorem C8_idempotent_upsert_and_diff_only_witness :
    ((insert_or_update_repo_impl (insert_or_update_repo_impl {}
        [("id", .vStr "octo/repo"), ("url", .vStr "https://github.com/octo/repo"),
         ("last_synced", .vStr "2024-01-01T00:00:00Z")] "2024-01-02T00:00:00Z")
        [("id", .vStr "octo/repo"), ("url", .vStr "https://github.com/octo/repo"),
         ("last_synced", .vStr "2024-01-01T00:00:00Z")] "2024-01-03T00:00:00Z").history
      = (insert_or_update_repo_impl {}
        [("id", .vStr "octo/repo"), ("url", .vStr "https://github.com/octo/repo"),
         ("last_synced", .vStr "2024-01-01T00:00:00Z")] "2024-01-02T00:00:00Z").history) ∧
    (HistoryRow.mk "octo/repo" "name" "a" "b" "t" ∈
        ({ history := [HistoryRow.mk "octo/repo" "name" "a" "b" "t"] } : DB).history ∨
      ("a" : String) ≠ "b") := by
  constructor
  · exact C8_idempotent_upsert_and_diff_only.1 {}
      [("id", .vStr "octo/repo"), ("url", .vStr "https://github.com/octo/repo"),
       ("last_synced", .vStr "2024-01-01T00:00:00Z")]
      "2024-01-02T00:00:00Z" "2024-01-03T00:00:00Z" (.vStr "octo/repo")
      (by decide) (by decide) (by decide)
  · exact C8_idempotent_upsert_and_diff_only.2
      { history := [HistoryRow.mk "octo/repo" "name" "a" "b" "t"] } [] "t"
      (HistoryRow.mk "octo/repo" "name" "a" "b" "t") (by decide)

/-- C9: on a conflicting upsert the stored `version` becomes the prior
stored version plus one (whatever the record's own `version` says), and on
a first insert with no supplied `version` the stored version is 1. -/
theorem C9_version_monotonic (db : DB) (R : List (String × PyVal)) (ts : String)
    (idv : PyVal) :
    (∀ (row : List (String × PyVal)) (n : Int),
       alookup R "id" = some idv →
       alookup db.repositories idv = some row →
       alookup row "version" = some (.vInt n) →
       ∃ row', alookup (insert_or_update_repo_impl db R ts).repositories idv = some row' ∧
         alookup row' "version" = some (.vInt (n + 1))) ∧
    (alookup R "id" = some idv →
     alookup db.repositories idv = none →
     alookup R "version" = none →
     ∃ row', alookup (insert_or_update_repo_impl db R ts).repositories idv = some row' ∧
       alookup row' "version" = some (.vInt 1)) := by
  have hidV : alookup R "id" = some idv →
      alookup (setdefault (setdefault R "last_synced" (.vStr ts)) "version"
        (.vInt 1)) "id" = some idv := by
    intro hid
    rw [alookup_setdefault_ne _ "version" "id" _ (by decide),
      alookup_setdefault_ne _ "last_synced" "id" _ (by decide)]
    exact hid
  constructor
  · intro row n hid hrow hver
    unfold insert_or_update_repo_impl
    dsimp only
    rw [hidV hid]
    dsimp only
    rw [hrow]
    dsimp only
    refine ⟨_, alookup_aset_self _ _ _, ?_⟩
    rw [alookup_aset_self, hver]
    rfl
  · intro hid hnone hverR
    unfold insert_or_update_repo_impl
    dsimp only
    rw [hidV hid]
    dsimp only
    rw [hnone]
    dsimp only
    refine ⟨_, alookup_aset_self _ _ _, ?_⟩
    have hverV : alookup (setdefault (setdefault R "last_synced" (.vStr ts)) "version"
        (.vInt 1)) "version" = some (.vInt 1) := by
      apply alookup_setdefault_none
      rw [alookup_setdefault_ne _ "last_synced" "version" _ (by decide)]
      exact hverR
    rw [alookup_insert_row,
      if_pos ⟨List.mem_filter.mpr ⟨by decide, by rw [hverV]; rfl⟩, by rw [hverV]; rfl⟩]
    exact hverV

/-- C9 witness: updating a stored row with version 4 stores version 5; a
first insert without a supplied version stores version 1. -/
theorem C9_version_monotonic_witness :
    (∃ row', alookup (insert_or_update_repo_impl
        { repositories := [(.vStr "octo/repo",
            [("id", .vStr "octo/repo"), ("version", .vInt 4)])] }
        [("id", .vStr "octo/repo"), ("version", .vInt 9)]
        "2024-01-01T00:00:00Z").repositories (.vStr "octo/repo") = some row' ∧
      alookup row' "version" = some (.vInt 5)) ∧
    (∃ row', alookup (insert_or_update_repo_impl {}
        [("id", .vStr "octo/repo")]
        "2024-01-01T00:00:00Z").repositories (.vStr "octo/repo") = some row' ∧
      alookup row' "version" = some (.vInt 1)) := by
  constructor
  · exact (C9_version_monotonic
      { repositories := [(.vStr "octo/repo",
          [("id", .vStr "octo/repo"), ("version", .vInt 4)])] }
      [("id", .vStr "octo/repo"), ("version", .vInt 9)]
      "2024-01-01T00:00:00Z" (.vStr "octo/repo")).1
      [("id", .vStr "octo/repo"), ("version", .vInt 4)] 4
      (by decide) (by decide) (by decide)
  · exact (C9_version_monotonic {} [("id", .vStr "octo/repo")]
      "2024-01-01T00:00:00Z" (.vStr "octo/repo")).2 (by decide) rfl (by decide)

end Nuggit
